import Mathlib

/-!
Registration-form validation (client/js/main.js)

A shallow embedding of the `FormValidator` class of `red-social-wed/client/js/main.js`
and of the phone formatter of `FormUtils`, with the properties of the field
validators, of `validateAllFields`, of `clearFieldError` and of `handleSubmit`.

Conventions of the embedding

* A JavaScript string is its sequence of UTF-16 code units (`JSString`); `length`,
  `trim`, `split` and regular expressions without the `u` flag all work on code units.
* A regular expression literal is translated constructor by constructor into `Regex`;
  `re.test(s)` for a pattern anchored with `^` and `$` is `Regex.test`, a matcher by
  derivatives.  `Regex.Matches` is the usual language of the expression and the two are
  proved to agree.
* A JavaScript number that may be `NaN` is an `Option Int` (`none` is `NaN`); the only
  numbers the validators compute with are calendar fields and their differences.
* The `Date` constructor and the clock belong to the platform, not to the repository:
  they are the two fields of `DateEnv`.
* The page is a finite map from element ids to elements (`Document`).
* `handleSubmit` is a function on the form state (`Form`) that also keeps a log of
  its actions; the server is a parameter (`handleSubmitWith`) and the code after
  `await` runs on the state left before it.
-/

namespace FormValidator

/-! ## Strings -/

/-- One UTF-16 code unit, a number below 65536.  The validators only compare code
units with constants, so the bound is not carried by the type. -/
abbrev CodeUnit := Nat

/-- A JavaScript string: a sequence of UTF-16 code units. -/
abbrev JSString := List CodeUnit

/-- UTF-16 encoding of one Unicode scalar value. -/
def encodeChar (c : Char) : JSString :=
  if c.toNat < 0x10000 then [c.toNat]
  else [0xD800 + (c.toNat - 0x10000) / 0x400, 0xDC00 + (c.toNat - 0x10000) % 0x400]

/-- The JavaScript string written by a string literal. -/
def js (s : String) : JSString :=
  s.toList.flatMap encodeChar

/-- The code units removed by `String.prototype.trim` and matched by `\s`
(ECMAScript WhiteSpace and LineTerminator). -/
def isWhiteSpace (c : CodeUnit) : Bool :=
  c == 0x09 || c == 0x0A || c == 0x0B || c == 0x0C || c == 0x0D || c == 0x20 ||
  c == 0xA0 || c == 0x1680 || (0x2000 ≤ c && c ≤ 0x200A) || c == 0x2028 ||
  c == 0x2029 || c == 0x202F || c == 0x205F || c == 0x3000 || c == 0xFEFF

/-- The class `\d`. -/
def isDigit (c : CodeUnit) : Bool :=
  0x30 ≤ c && c ≤ 0x39

/-- Method `String.prototype.trim`. -/
def trim (s : JSString) : JSString :=
  (s.dropWhile isWhiteSpace).rdropWhile isWhiteSpace

/-- Worker of `split`: `cur` is the piece being read, in reverse. -/
def splitAux (sep : CodeUnit) : JSString → JSString → List JSString
  | [], cur => [cur.reverse]
  | c :: cs, cur =>
    if c = sep then cur.reverse :: splitAux sep cs [] else splitAux sep cs (c :: cur)

/-- Method `String.prototype.split` with a separator of one code unit. -/
def split (sep : CodeUnit) (s : JSString) : List JSString :=
  splitAux sep s []

/-! ## Regular expressions -/

/-- Abstract syntax of the regular expressions used by the validators. -/
inductive Regex where
  | fail : Regex
  | eps : Regex
  | cls (p : CodeUnit → Bool) : Regex
  | seq (a b : Regex) : Regex
  | alt (a b : Regex) : Regex
  | star (a : Regex) : Regex

namespace Regex

/-- A literal code unit. -/
def chr (c : CodeUnit) : Regex :=
  cls (fun x => x == c)

/-- The quantifier `+`. -/
def plus (r : Regex) : Regex :=
  seq r (star r)

/-- The quantifier `{n}`. -/
def times (r : Regex) : Nat → Regex
  | 0 => eps
  | n + 1 => seq r (times r n)

/-- The quantifier `{0,n}`. -/
def upTo (r : Regex) : Nat → Regex
  | 0 => eps
  | n + 1 => alt eps (seq r (upTo r n))

/-- The quantifier `{lo,hi}`. -/
def range (r : Regex) (lo hi : Nat) : Regex :=
  seq (times r lo) (upTo r (hi - lo))

/-- Whether the expression matches the empty string. -/
def nullable : Regex → Bool
  | fail => false
  | eps => true
  | cls _ => false
  | seq a b => nullable a && nullable b
  | alt a b => nullable a || nullable b
  | star _ => true

/-- Derivative of an expression by one code unit. -/
def deriv (c : CodeUnit) : Regex → Regex
  | fail => fail
  | eps => fail
  | cls p => if p c then eps else fail
  | seq a b => if nullable a then alt (seq (deriv c a) b) (deriv c b) else seq (deriv c a) b
  | alt a b => alt (deriv c a) (deriv c b)
  | star a => seq (deriv c a) (star a)

/-- Method `RegExp.prototype.test` for a pattern written between `^` and `$`
(no flags): the whole string must match. -/
def test (r : Regex) : JSString → Bool
  | [] => nullable r
  | c :: cs => test (deriv c r) cs

/-- The language of an expression. -/
def Matches : Regex → JSString → Prop
  | fail, _ => False
  | eps, s => s = []
  | cls p, s => ∃ c, s = [c] ∧ p c = true
  | seq a b, s => ∃ u v, s = u ++ v ∧ Matches a u ∧ Matches b v
  | alt a b, s => Matches a s ∨ Matches b s
  | star a, s => ∃ L : List JSString, s = L.flatten ∧ ∀ u ∈ L, Matches a u

end Regex

/-- Call `s.replace(/[...]/g, '')` for a pattern that is a single character class:
every code unit of the class is deleted. -/
def removeAll (cls : CodeUnit → Bool) (s : JSString) : JSString :=
  s.filter (fun c => !cls c)

/-! ## Validation results -/

/-- The object returned by every validator. -/
structure ValidationResult where
  isValid : Bool
  message : String
  deriving DecidableEq, Repr

/-- Truthiness of a string: only the empty string is falsy. -/
def truthy (s : JSString) : Bool :=
  !s.isEmpty

/-! ## Numbers and dates -/

/-- A number that is an integer or `NaN` (`none`). -/
abbrev JSNum := Option Int

/-- Subtraction; `NaN` is absorbing. -/
def numSub (a b : JSNum) : JSNum :=
  match a, b with
  | some x, some y => some (x - y)
  | _, _ => none

/-- Comparison `a < b`; false when either side is `NaN`. -/
def numLt (a b : JSNum) : Bool :=
  match a, b with
  | some x, some y => decide (x < y)
  | _, _ => false

/-- Comparison `a === b`; false when either side is `NaN`. -/
def numEq (a b : JSNum) : Bool :=
  match a, b with
  | some x, some y => decide (x = y)
  | _, _ => false

/-- What the validator reads from a valid `Date` object: its time value
(milliseconds since the epoch) and the local calendar fields returned by
`getFullYear`, `getMonth` (0 to 11) and `getDate`. -/
structure DateFields where
  time : Int
  fullYear : Int
  month : Int
  date : Int
  deriving DecidableEq, Repr

/-- A `Date` object; `none` is an Invalid Date, whose time value is `NaN`. -/
abbrev JSDate := Option DateFields

/-- Method `Date.prototype.valueOf`. -/
def valueOf (d : JSDate) : JSNum :=
  d.map DateFields.time

/-- Method `Date.prototype.getFullYear`. -/
def getFullYear (d : JSDate) : JSNum :=
  d.map DateFields.fullYear

/-- Method `Date.prototype.getMonth`. -/
def getMonth (d : JSDate) : JSNum :=
  d.map DateFields.month

/-- Method `Date.prototype.getDate`. -/
def getDate (d : JSDate) : JSNum :=
  d.map DateFields.date

/-- Comparison `a > b` of two `Date` objects, through their time values. -/
def dateGt (a b : JSDate) : Bool :=
  numLt (valueOf b) (valueOf a)

/-- The platform services used by `validateBirthDate`: `new Date(value)` and
`new Date()`. -/
structure DateEnv where
  newDate : JSString → JSDate
  now : DateFields

/-! ## Field validators -/

/-- Method `validateRequired` (lines 72-77). -/
def validateRequired (value : JSString) : ValidationResult :=
  { isValid := trim value != [], message := "Este campo es obligatorio" }

/-- The pattern `/^\d{6,15}$/`. -/
def identificationRegex : Regex :=
  Regex.range (Regex.cls isDigit) 6 15

/-- Method `validateIdentification` (lines 84-104). -/
def validateIdentification (value : JSString) : ValidationResult :=
  if !truthy (trim value) then
    { isValid := false, message := "El número de identificación es obligatorio" }
  else if !identificationRegex.test (trim value) then
    { isValid := false,
      message := "El número de identificación debe contener entre 6 y 15 dígitos" }
  else
    { isValid := true, message := "Número de identificación válido" }

/-- The character class `[a-zA-ZáéíóúÁÉÍÓÚñÑ\s]`. -/
def isNameChar (c : CodeUnit) : Bool :=
  ('a'.toNat ≤ c && c ≤ 'z'.toNat) || ('A'.toNat ≤ c && c ≤ 'Z'.toNat) ||
  c == 'á'.toNat || c == 'é'.toNat || c == 'í'.toNat || c == 'ó'.toNat || c == 'ú'.toNat ||
  c == 'Á'.toNat || c == 'É'.toNat || c == 'Í'.toNat || c == 'Ó'.toNat || c == 'Ú'.toNat ||
  c == 'ñ'.toNat || c == 'Ñ'.toNat || isWhiteSpace c

/-- The pattern `/^[a-zA-ZáéíóúÁÉÍÓÚñÑ\s]+$/`. -/
def nameRegex : Regex :=
  Regex.plus (Regex.cls isNameChar)

/-- Method `validateName` (lines 111-138). -/
def validateName (value : JSString) : ValidationResult :=
  if !truthy (trim value) then
    { isValid := false, message := "Este campo es obligatorio" }
  else if (trim value).length < 2 then
    { isValid := false, message := "Debe tener al menos 2 caracteres" }
  else if !nameRegex.test (trim value) then
    { isValid := false, message := "Solo se permiten letras y espacios" }
  else
    { isValid := true, message := "Nombre válido" }

/-- The age computed on lines 157-162: the year difference, less one when the
birthday has not yet come this year. -/
def computeAge (today birthDate : JSDate) : JSNum :=
  let age := numSub (getFullYear today) (getFullYear birthDate)
  let monthDiff := numSub (getMonth today) (getMonth birthDate)
  if numLt monthDiff (some 0) ||
      (numEq monthDiff (some 0) && numLt (getDate today) (getDate birthDate)) then
    numSub age (some 1)
  else
    age

/-- Method `validateBirthDate` (lines 145-190). -/
def validateBirthDate (env : DateEnv) (value : JSString) : ValidationResult :=
  if !truthy value then
    { isValid := false, message := "La fecha de nacimiento es obligatoria" }
  else
    let birthDate := env.newDate value
    let today : JSDate := some env.now
    let age := computeAge today birthDate
    if dateGt birthDate today then
      { isValid := false, message := "La fecha de nacimiento no puede ser futura" }
    else if numLt age (some 13) then
      { isValid := false, message := "Debes tener al menos 13 años para registrarte" }
    else if numLt (some 120) age then
      { isValid := false, message := "Por favor verifica la fecha de nacimiento" }
    else
      { isValid := true, message := "Fecha de nacimiento válida" }

/-- The character class `[\s\-\(\)]`. -/
def isPhoneSeparator (c : CodeUnit) : Bool :=
  isWhiteSpace c || c == '-'.toNat || c == '('.toNat || c == ')'.toNat

/-- The pattern `/^\d{7,15}$/`. -/
def phoneRegex : Regex :=
  Regex.range (Regex.cls isDigit) 7 15

/-- Method `validatePhone` (lines 197-219). -/
def validatePhone (value : JSString) : ValidationResult :=
  if !truthy (trim value) then
    { isValid := false, message := "El número de teléfono es obligatorio" }
  else
    let cleanPhone := removeAll isPhoneSeparator value
    if !phoneRegex.test cleanPhone then
      { isValid := false, message := "El teléfono debe tener entre 7 y 15 dígitos" }
    else
      { isValid := true, message := "Número de teléfono válido" }

/-- The character class `[^\s@]`. -/
def isEmailChar (c : CodeUnit) : Bool :=
  !(isWhiteSpace c || c == '@'.toNat)

/-- The pattern `/^[^\s@]+@[^\s@]+\.[^\s@]+$/`. -/
def emailRegex : Regex :=
  Regex.seq (Regex.plus (Regex.cls isEmailChar))
    (Regex.seq (Regex.chr '@'.toNat)
      (Regex.seq (Regex.plus (Regex.cls isEmailChar))
        (Regex.seq (Regex.chr '.'.toNat) (Regex.plus (Regex.cls isEmailChar)))))

/-- Method `validateEmail` (lines 226-255).  The element `[1]` of the split is
`none` when the array has fewer than two pieces (`undefined`). -/
def validateEmail (value : JSString) : ValidationResult :=
  if !truthy (trim value) then
    { isValid := false, message := "El correo electrónico es obligatorio" }
  else if !emailRegex.test (trim value) then
    { isValid := false, message := "Por favor ingresa un correo electrónico válido" }
  else
    let domain := (split '@'.toNat value).get? 1
    let tooShort :=
      match domain with
      | some d => truthy d && decide (d.length < 3)
      | none => false
    if tooShort then
      { isValid := false, message := "El dominio del correo no es válido" }
    else
      { isValid := true, message := "Correo electrónico válido" }

/-! ## The page -/

/-- A page element as the validator uses it: a form control with its raw `value`
and `checked` state, its `classList`, and its `textContent`. -/
structure Element where
  value : JSString
  checked : Bool
  classList : List String
  textContent : String
  deriving DecidableEq, Repr

/-- The page: what `document.getElementById` returns for each id. -/
abbrev Document := String → Option Element

/-- The page after the element with the given id has been mutated to `e`. -/
def setElement (doc : Document) (id : String) (e : Element) : Document :=
  fun i => if i = id then some e else doc i

/-- Method `classList.remove` with one token. -/
def classRemove (classes : List String) (token : String) : List String :=
  classes.filter (fun c => c != token)

/-- Method `classList.add` with one token. -/
def classAdd (classes : List String) (token : String) : List String :=
  if classes.contains token then classes else classes ++ [token]

/-- Method `validateTerms` (lines 263-268). -/
def validateTerms (_value : JSString) (field : Element) : ValidationResult :=
  { isValid := field.checked,
    message := "Debes aceptar los términos y condiciones para continuar" }

/-- A registered validator, called as `validator(field.value, field)`. -/
abbrev Validator := JSString → Element → ValidationResult

/-- The registry `this.validators` of the constructor (lines 10-20), in insertion
order. -/
def validators (env : DateEnv) : List (String × Validator) :=
  [ ("identification", fun value _ => validateIdentification value),
    ("idType", fun value _ => validateRequired value),
    ("firstName", fun value _ => validateName value),
    ("lastName", fun value _ => validateName value),
    ("birthDate", fun value _ => validateBirthDate env value),
    ("gender", fun value _ => validateRequired value),
    ("phone", fun value _ => validatePhone value),
    ("email", fun value _ => validateEmail value),
    ("terms", validateTerms) ]

/-- The field names `Object.keys(this.validators)`. -/
def fieldNames : List String :=
  ["identification", "idType", "firstName", "lastName", "birthDate", "gender",
   "phone", "email", "terms"]

/-- Method `displayFieldResult` (lines 275-291). -/
def displayFieldResult (doc : Document) (fieldName : String) (result : ValidationResult) :
    Document :=
  match doc fieldName, doc (fieldName ++ "-error") with
  | some field, some errorDiv =>
    let classes := classRemove (classRemove field.classList "is-valid") "is-invalid"
    if result.isValid then
      setElement
        (setElement doc fieldName { field with classList := classAdd classes "is-valid" })
        (fieldName ++ "-error") { errorDiv with textContent := "" }
    else
      setElement
        (setElement doc fieldName { field with classList := classAdd classes "is-invalid" })
        (fieldName ++ "-error") { errorDiv with textContent := result.message }
  | _, _ => doc

/-- Method `validateField` (lines 55-65): the verdict and the page after the
visual update.  The validator is looked up among the keys of the registry itself,
which is the method at every name that `Object.prototype` does not define; the
class calls the method only with the nine registered names (lines 37, 46 and 316).
`validateFieldFull` below adds the names inherited from `Object.prototype`. -/
def validateField (env : DateEnv) (doc : Document) (fieldName : String) : Bool × Document :=
  match doc fieldName, (validators env).lookup fieldName with
  | some field, some validator =>
    let result := validator field.value field
    (result.isValid, displayFieldResult doc fieldName result)
  | _, _ => (true, doc)

/-- The table `labels` of `getFieldLabel`. -/
def labels : List (String × String) :=
  [ ("identification", "Número de identificación"),
    ("idType", "Tipo de documento"),
    ("firstName", "Nombres"),
    ("lastName", "Apellidos"),
    ("birthDate", "Fecha de nacimiento"),
    ("gender", "Género"),
    ("phone", "Número de teléfono"),
    ("email", "Correo electrónico"),
    ("terms", "Términos y condiciones") ]

/-- Method `getFieldLabel` (lines 333-347): `labels[fieldName] || fieldName`, with
the table looked up among its own keys.  This is the method at every name that
`Object.prototype` does not define; the class calls it only with registered names
(line 320). -/
def getFieldLabel (fieldName : String) : String :=
  match labels.lookup fieldName with
  | some label => if label ≠ "" then label else fieldName
  | none => fieldName

/-- The object returned by `validateAllFields`. -/
structure FormValidationSummary where
  isValid : Bool
  errors : List String
  deriving DecidableEq, Repr

/-- The loop state of `validateAllFields`: `isFormValid`, `errors` and the page. -/
structure AllFieldsState where
  isFormValid : Bool
  errors : List String
  doc : Document

/-- One iteration of the `forEach` of `validateAllFields` (lines 315-323). -/
def validateAllFieldsStep (env : DateEnv) (st : AllFieldsState) (fieldName : String) :
    AllFieldsState :=
  let r := validateField env st.doc fieldName
  if !r.1 then
    let label :=
      match r.2 fieldName with
      | some _ => getFieldLabel fieldName
      | none => fieldName
    { isFormValid := false, errors := st.errors ++ [label], doc := r.2 }
  else
    { st with doc := r.2 }

/-- Method `validateAllFields` (lines 311-326): the summary and the page after all
visual updates. -/
def validateAllFields (env : DateEnv) (doc : Document) : FormValidationSummary × Document :=
  let final :=
    ((validators env).map Prod.fst).foldl (validateAllFieldsStep env)
      { isFormValid := true, errors := [], doc := doc }
  ({ isValid := final.isFormValid, errors := final.errors }, final.doc)

/-! ## Vocabulary of the specification -/

/-- A code unit that the specification allows in a name: an ASCII letter, a
white-space character, or one of á é í ó ú Á É Í Ó Ú ñ Ñ. -/
def SpanishLetterOrSpace (c : CodeUnit) : Prop :=
  (0x41 ≤ c ∧ c ≤ 0x5A) ∨ (0x61 ≤ c ∧ c ≤ 0x7A) ∨ isWhiteSpace c = true ∨
    c ∈ [0xE1, 0xE9, 0xED, 0xF3, 0xFA, 0xC1, 0xC9, 0xCD, 0xD3, 0xDA, 0xF1, 0xD1]

instance (c : CodeUnit) : Decidable (SpanishLetterOrSpace c) := by
  unfold SpanishLetterOrSpace
  infer_instance

/-- The text after the first `@` of a string (empty when it has no `@`). -/
def afterFirstAt (s : JSString) : JSString :=
  (s.dropWhile (fun c => c != '@'.toNat)).drop 1

/-- The strings described by `^[^\s@]+@[^\s@]+\.[^\s@]+$`: a local part, one
`@`, and a domain with a dot that has text on both sides; the three texts are
non-empty and hold neither white space nor `@`. -/
def EmailShape (s : JSString) : Prop :=
  ∃ l d t : JSString, s = l ++ '@'.toNat :: (d ++ '.'.toNat :: t) ∧
    l ≠ [] ∧ d ≠ [] ∧ t ≠ [] ∧
    ∀ c ∈ l ++ d ++ t, isWhiteSpace c = false ∧ c ≠ '@'.toNat

/-- The age of the specification: the year difference, decremented by 1 when the
current month is before the birth month, or the months are the same and the current
day is before the birth day. -/
def specAge (today birth : DateFields) : Int :=
  if today.month < birth.month ∨ (today.month = birth.month ∧ today.date < birth.date) then
    today.fullYear - birth.fullYear - 1
  else
    today.fullYear - birth.fullYear

/-- Length in days of month `m` (0 is January) of year `y` in the Gregorian
calendar. -/
def daysInMonth (y m : Int) : Int :=
  if m = 1 then
    if y % 4 = 0 ∧ (y % 100 ≠ 0 ∨ y % 400 = 0) then 29 else 28
  else if m = 3 ∨ m = 5 ∨ m = 8 ∨ m = 10 then 30
  else 31

/-- The calendar day after the day `d` of month `m` (0 is January) of year `y`. -/
def nextDay (y m d : Int) : Int × Int × Int :=
  if d < daysInMonth y m then (y, m, d + 1)
  else if m < 11 then (y, m + 1, 1)
  else (y + 1, 0, 1)

/-- A platform for the examples, in the zone UTC: the clock reads noon of
6 November 2026 and the `Date` constructor knows the ISO dates used below; every
other text is an Invalid Date. -/
def exampleEnv : DateEnv where
  newDate := fun s =>
    if s = js "2013-11-06" then some ⟨1383696000000, 2013, 10, 6⟩
    else if s = js "2013-11-07" then some ⟨1383782400000, 2013, 10, 7⟩
    else if s = js "2027-01-01" then some ⟨1798761600000, 2027, 0, 1⟩
    else if s = js "1900-01-01" then some ⟨-2208988800000, 1900, 0, 1⟩
    else none
  now := ⟨1793966400000, 2026, 10, 6⟩

/-- The calendar date written by a text `YYYY-MM-DD`: year, month (0 is January)
and day.  This is the date the user entered, whatever `Date` object the platform
builds from the text. -/
def isoDateFields (s : JSString) : Option (Int × Int × Int) :=
  let number := fun (t : JSString) => t.foldl (fun n c => 10 * n + (c - '0'.toNat)) 0
  if s.length = 10 ∧ s.get? 4 = some '-'.toNat ∧ s.get? 7 = some '-'.toNat ∧
      (s.take 4 ++ (s.drop 5).take 2 ++ s.drop 8).all isDigit then
    some (number (s.take 4), (number ((s.drop 5).take 2) : Int) - 1, number (s.drop 8))
  else
    none

/-- The civil date (year, month with 0 for January, day) of the day that is `days`
days after 1 January 1970, in the proleptic Gregorian calendar. -/
def civilFromDays (days : Int) : Int × Int × Int :=
  let z := days + 719468
  let era := z / 146097
  let doe := z - era * 146097
  let yoe := (doe - doe / 1460 + doe / 36524 - doe / 146096) / 365
  let doy := doe - (365 * yoe + yoe / 4 - yoe / 100)
  let mp := (5 * doy + 2) / 153
  let d := doy - (153 * mp + 2) / 5 + 1
  let m := if mp < 10 then mp + 3 else mp - 9
  (if m ≤ 2 then yoe + era * 400 + 1 else yoe + era * 400, m - 1, d)

/-- The `Date` object with time value `time` (milliseconds since the epoch, UTC)
as seen in a zone whose local time is UTC plus `offsetHours` hours: the getters
report the civil date of the local time. -/
def dateInZone (offsetHours : Int) (time : Int) : DateFields :=
  let civil := civilFromDays ((time + offsetHours * 3600000) / 86400000)
  { time := time, fullYear := civil.1, month := civil.2.1, date := civil.2.2 }

/-- A platform for the examples, in the zone America/Bogota (UTC-5 all year): the
clock reads 2026-11-06T12:00:00Z, which is 07:00 of 6 November 2026 there.  The
`Date` constructor reads a date-only ISO text as midnight UTC of that day (time
value 1383782400000 for "2013-11-07"), which is 19:00 of the day before in this
zone. -/
def bogotaEnv : DateEnv where
  newDate := fun s =>
    if s = js "2013-11-06" then some (dateInZone (-5) 1383696000000)
    else if s = js "2013-11-07" then some (dateInZone (-5) 1383782400000)
    else if s = js "2013-11-08" then some (dateInZone (-5) 1383868800000)
    else none
  now := dateInZone (-5) 1793966400000

/-- What the validators read from an element: its raw value and checked state. -/
def Element.inputs (e : Element) : JSString × Bool :=
  (e.value, e.checked)

/-- Two pages with the same elements present and the same raw values and checked
states; they may differ in classes and texts. -/
def SameInputs (d d' : Document) : Prop :=
  ∀ id, (d id).map Element.inputs = (d' id).map Element.inputs

/-- A page for the examples: a valid form but for the address, with the error
holders of the nine fields. -/
def examplePage : Document := fun id =>
  if id = "identification" then some ⟨js "1032456789", false, [], ""⟩
  else if id = "idType" then some ⟨js "CC", false, [], ""⟩
  else if id = "firstName" then some ⟨js "Ana María", false, [], ""⟩
  else if id = "lastName" then some ⟨js "Muñoz", false, [], ""⟩
  else if id = "birthDate" then some ⟨js "2013-11-06", false, [], ""⟩
  else if id = "gender" then some ⟨js "F", false, [], ""⟩
  else if id = "phone" then some ⟨js "300-123-4567", false, [], ""⟩
  else if id = "email" then some ⟨js "ana@correo", false, ["is-valid"], ""⟩
  else if id = "terms" then some ⟨js "on", true, [], ""⟩
  else if id ∈ fieldNames.map (fun n => n ++ "-error") then some ⟨[], false, [], ""⟩
  else none

/-! ## Clearing a field error, and the phone formatter -/

/-- Method `clearFieldError` (lines 297-305).  Both elements are looked up before
anything is changed. -/
def clearFieldError (doc : Document) (fieldName : String) : Document :=
  match doc fieldName with
  | some field =>
    if field.classList.contains "is-invalid" then
      let doc1 :=
        setElement doc fieldName
          { field with classList := classRemove field.classList "is-invalid" }
      match doc (fieldName ++ "-error") with
      | some errorDiv => setElement doc1 (fieldName ++ "-error") { errorDiv with textContent := "" }
      | none => doc1
    else
      doc
  | none => doc

/-- Method `String.prototype.slice` with two indices, `0 ≤ start ≤ stop`. -/
def slice (s : JSString) (start stop : Nat) : JSString :=
  (s.take stop).drop start

/-- Method `String.prototype.slice` with one index, `0 ≤ start`. -/
def sliceFrom (s : JSString) (start : Nat) : JSString :=
  s.drop start

/-- The grouping of lines 525-535 of `FormUtils.formatPhoneNumber`, applied to the
text `value` left after the non-digits are removed. -/
def formatDigits (value : JSString) : JSString :=
  if value.length > 0 then
    if value.length ≤ 3 then
      value
    else if value.length ≤ 6 then
      slice value 0 3 ++ js "-" ++ sliceFrom value 3
    else
      slice value 0 3 ++ js "-" ++ slice value 3 6 ++ js "-" ++ slice value 6 10
  else
    []

/-- The input handler installed by `FormUtils.formatPhoneNumber` (lines 523-538):
the value written back to the field, from the value typed.  The pattern `/\D/g`
deletes every code unit that is not a decimal digit. -/
def formatPhoneNumber (input : JSString) : JSString :=
  formatDigits (removeAll (fun c => !isDigit c) input)

/-- The validator the specification compares `validateEmail` with: the same rules
without the one on the length of the domain. -/
def validateEmailWithoutDomainRule (value : JSString) : ValidationResult :=
  if trim value = [] then
    { isValid := false, message := "El correo electrónico es obligatorio" }
  else if emailRegex.test (trim value) then
    { isValid := true, message := "Correo electrónico válido" }
  else
    { isValid := false, message := "Por favor ingresa un correo electrónico válido" }

/-- A page for the examples: the address field marked invalid, with its message. -/
def pageWithError : Document := fun id =>
  if id = "email" then some ⟨js "ana@correo", false, ["form-control", "is-invalid"], ""⟩
  else if id = "email-error" then
    some ⟨[], false, ["invalid-feedback"], "Por favor ingresa un correo electrónico válido"⟩
  else none

/-- A page for the examples: `examplePage` without the terms checkbox. -/
def pageWithoutTerms : Document := fun id =>
  if id = "terms" then none else examplePage id

/-! ## Names inherited from `Object.prototype` -/

/-- What the call `validator(field.value, field)` of `validateField` does when
`validator` is not a registered validator but a member that the object
`this.validators` inherits from `Object.prototype`: it throws a `TypeError`, or it
returns a value that is not a validation result, whose `isValid` and `message` are
`undefined`. -/
inductive InheritedCall where
  | throws
  | returnsOther
  deriving DecidableEq, Repr

/-- The members of `Object.prototype`: what the lookup `this.validators[fieldName]`
of line 57 finds for such a name, which is not a key of the registry.  Called with
`this` undefined and a string as first argument, `toString` returns
"[object Undefined]", `constructor` (the function `Object`) returns a wrapper of the
string, and `isPrototypeOf` returns `false`; the other functions convert `this` to
an object first and throw; `__proto__` is `Object.prototype` itself, an object,
and calling it throws. -/
def objectPrototype (name : String) : Option InheritedCall :=
  if name ∈ ["toString", "constructor", "isPrototypeOf"] then
    some InheritedCall.returnsOther
  else if name ∈ ["hasOwnProperty", "propertyIsEnumerable", "toLocaleString", "valueOf",
      "__defineGetter__", "__defineSetter__", "__lookupGetter__", "__lookupSetter__",
      "__proto__"] then
    some InheritedCall.throws
  else
    none

/-- How a call of `validateField` ends: it returns a boolean, it returns
`undefined`, or it throws. -/
inductive FieldOutcome where
  | returns (isValid : Bool)
  | returnsUndefined
  | throws
  deriving DecidableEq, Repr

/-- Method `validateField` (lines 55-65) at every name, with the lookup
`this.validators[fieldName]` going through the prototype chain.  Without the
element, or without any property of that name, the method returns `true`.  A
registered validator is run as in `validateField`.  An inherited member is truthy,
so the guard of line 59 lets it through and line 61 calls it: if the call throws,
so does the method, before any visual update; otherwise `displayFieldResult` gets a
result whose `isValid` is `undefined`, which its `if` takes as false, and whose
`message` is `undefined`, which `textContent` takes as the empty text, and the
method returns `undefined`. -/
def validateFieldFull (env : DateEnv) (doc : Document) (fieldName : String) :
    FieldOutcome × Document :=
  match doc fieldName with
  | none => (FieldOutcome.returns true, doc)
  | some field =>
    match (validators env).lookup fieldName with
    | some validator =>
      let result := validator field.value field
      (FieldOutcome.returns result.isValid, displayFieldResult doc fieldName result)
    | none =>
      match objectPrototype fieldName with
      | none => (FieldOutcome.returns true, doc)
      | some InheritedCall.throws => (FieldOutcome.throws, doc)
      | some InheritedCall.returnsOther =>
        (FieldOutcome.returnsUndefined,
          displayFieldResult doc fieldName { isValid := false, message := "" })

/-- A page for the examples: `<input id="toString" value="x">` with its error holder
`<div id="toString-error">`. -/
def pageToString : Document := fun id =>
  if id = "toString" then some ⟨js "x", false, [], ""⟩
  else if id = "toString-error" then some ⟨[], false, [], ""⟩
  else none

/-! ## Submission -/

/-- The object built by `getFormData`: the named values of the form, and the values
of the checked options of the group `socialMedia`. -/
structure FormData where
  fields : List (String × JSString)
  socialMedia : List JSString
  deriving DecidableEq, Repr

/-- The reply `{ success, message }` of the server. -/
structure SubmissionOutcome where
  success : Bool
  message : String
  deriving DecidableEq, Repr

/-- How the promise returned by `submitToServer` settles. -/
inductive ServerReply where
  | resolved (response : SubmissionOutcome) : ServerReply
  | rejected : ServerReply
  deriving DecidableEq, Repr

/-- The actions of `handleSubmit` that are seen outside the form state. -/
inductive Effect where
  | preventDefault : Effect
  | getFormData : Effect
  | confirm : Effect
  | setLoading (isLoading : Bool) : Effect
  | submitToServer (data : FormData) : Effect
  | consoleError : Effect
  | scrollToError : Effect
  | scrollToSuccess : Effect
  | scheduleReset : Effect
  deriving DecidableEq, Repr

/-- The state that `handleSubmit` reads and writes: the page, the entries of
`new FormData(this.form)`, the check boxes `input[name="socialMedia"]`, the two
banners (`style.display` of `errorMessage` and `successMessage`, text of
`errorText`), the submit button, and the log of the actions so far, oldest first. -/
structure Form where
  doc : Document
  entries : List (String × JSString)
  socialMedia : List Element
  errorMessageDisplay : String
  successMessageDisplay : String
  errorText : String
  submitDisabled : Bool
  btnText : String
  log : List Effect

/-- Append one action to the log. -/
def record (form : Form) (effect : Effect) : Form :=
  { form with log := form.log ++ [effect] }

/-- Method `showError` (lines 353-363). -/
def showError (form : Form) (message : String) : Form :=
  record
    { form with
      errorText := message, errorMessageDisplay := "block", successMessageDisplay := "none" }
    Effect.scrollToError

/-- Method `showSuccess` (lines 368-377). -/
def showSuccess (form : Form) : Form :=
  record { form with successMessageDisplay := "block", errorMessageDisplay := "none" }
    Effect.scrollToSuccess

/-- Method `setLoading` (lines 383-391). -/
def setLoading (form : Form) (isLoading : Bool) : Form :=
  if isLoading then
    record
      { form with
        submitDisabled := true,
        btnText := "<i class=\"fas fa-spinner fa-spin me-2\"></i>Procesando..." }
      (Effect.setLoading true)
  else
    record { form with submitDisabled := false, btnText := "Unirse a la Red Social" }
      (Effect.setLoading false)

/-- Assignment `data[key] = value` on an object kept as the list of its
properties in insertion order. -/
def setProperty (data : List (String × JSString)) (key : String) (value : JSString) :
    List (String × JSString) :=
  if data.any (fun p => p.1 == key) then
    data.map (fun p => if p.1 = key then (key, value) else p)
  else
    data ++ [(key, value)]

/-- Method `getFormData` (lines 397-413). -/
def getFormData (form : Form) : FormData :=
  let data :=
    form.entries.foldl
      (fun data entry => if entry.1 != "socialMedia" then setProperty data entry.1 entry.2 else data)
      []
  { fields := data,
    socialMedia := (form.socialMedia.filter (fun cb => cb.checked)).map (fun cb => cb.value) }

/-- Method `submitToServer` (lines 420-429): the promise resolves, after two seconds,
with a successful reply whatever the data are. -/
def submitToServer (_data : FormData) : ServerReply :=
  ServerReply.resolved
    { success := true, message := "Usuario registrado exitosamente" }

/-- The block `try ... catch ... finally` of `handleSubmit` (lines 469-494), for a
server that settles as `server` says.  The continuation after `await` runs on the
state left before it. -/
def submitAndReport (server : FormData → ServerReply) (form : Form) (formData : FormData) :
    Form :=
  let form := setLoading form true
  let form := record form (Effect.submitToServer formData)
  let form :=
    match server formData with
    | ServerReply.resolved response =>
      if response.success then
        record (showSuccess form) Effect.scheduleReset
      else
        showError form
          (if response.message ≠ "" then response.message else "Error al procesar el registro")
    | ServerReply.rejected =>
      showError (record form Effect.consoleError)
        "Error de conexión. Por favor intenta nuevamente."
  setLoading form false

/-- The banner text of lines 446-448. -/
def validationErrorMessage (errors : List String) : String :=
  if errors.length > 1 then
    "Por favor corrige los siguientes campos: " ++ ", ".intercalate errors
  else
    "Por favor corrige el campo: " ++
      (match errors with
       | first :: _ => first
       | [] => "undefined")

/-- Method `handleSubmit` (lines 435-495) with the server as a parameter;
`confirmAnswer` is what the user answers if `confirm` is called. -/
def handleSubmitWith (server : FormData → ServerReply) (env : DateEnv)
    (confirmAnswer : Bool) (form : Form) : Form :=
  let form := record form Effect.preventDefault
  let form := { form with errorMessageDisplay := "none", successMessageDisplay := "none" }
  let validation := validateAllFields env form.doc
  let form := { form with doc := validation.2 }
  if !validation.1.isValid then
    showError form (validationErrorMessage validation.1.errors)
  else
    let form := record form Effect.getFormData
    let formData := getFormData form
    if formData.socialMedia.length = 0 then
      let form := record form Effect.confirm
      if !confirmAnswer then
        form
      else
        submitAndReport server form formData
    else
      submitAndReport server form formData

/-- Method `handleSubmit` (lines 435-495). -/
def handleSubmit (env : DateEnv) (confirmAnswer : Bool) (form : Form) : Form :=
  handleSubmitWith submitToServer env confirmAnswer form

/-- The labels of the fields that fail validation on a page, in registry order. -/
def failingLabels (env : DateEnv) (doc : Document) : List String :=
  (fieldNames.filter (fun n => !(validateField env doc n).1)).map getFieldLabel

/-- A page for the examples: `examplePage` with a valid address. -/
def validPage : Document := fun id =>
  if id = "email" then some ⟨js "ana@correo.co", false, [], ""⟩ else examplePage id

/-- A page for the examples: `examplePage` with the terms not accepted. -/
def pageTwoErrors : Document := fun id =>
  if id = "terms" then some ⟨js "on", false, [], ""⟩ else examplePage id

/-- A form for the examples, in its initial state, on a given page and with given
options of social networks. -/
def exampleForm (doc : Document) (socialMedia : List Element) : Form where
  doc := doc
  entries := [("identification", js "1032456789"), ("socialMedia", js "facebook"),
    ("email", js "ana@correo.co")]
  socialMedia := socialMedia
  errorMessageDisplay := "block"
  successMessageDisplay := "block"
  errorText := "previous"
  submitDisabled := false
  btnText := "Unirse a la Red Social"
  log := []

/-- A server for the examples that answers with a failure and no message. -/
def failingServer (_data : FormData) : ServerReply :=
  ServerReply.resolved { success := false, message := "" }

/-- A server for the examples whose call fails. -/
def brokenServer (_data : FormData) : ServerReply :=
  ServerReply.rejected

/-- The state in which `handleSubmit` reaches the block `try`: banners hidden, the
page as validation left it, and the log extended by `entries`. -/
def beforeSubmit (env : DateEnv) (form : Form) (entries : List Effect) : Form :=
  { form with
    doc := (validateAllFields env form.doc).2,
    errorMessageDisplay := "none",
    successMessageDisplay := "none",
    log := form.log ++ entries }

/-- The state in which `handleSubmit` waits for the server: the block `try` up to
the `await` of line 474, with the busy state set and the call made.  This is what
the user sees until the promise settles. -/
def submitPending (form : Form) (formData : FormData) : Form :=
  record (setLoading form true) (Effect.submitToServer formData)

/-- The rest of the block `try ... catch ... finally` (lines 476-494), run on the
waiting state once the promise has settled as `reply`. -/
def submitSettled (reply : ServerReply) (form : Form) : Form :=
  setLoading
    (match reply with
     | ServerReply.resolved response =>
       if response.success then
         record (showSuccess form) Effect.scheduleReset
       else
         showError form
           (if response.message ≠ "" then response.message else "Error al procesar el registro")
     | ServerReply.rejected =>
       showError (record form Effect.consoleError)
         "Error de conexión. Por favor intenta nuevamente.")
    false

end FormValidator

namespace FormValidator

/-! ## Regular expressions: the matcher decides the language -/

namespace Regex

theorem nullable_iff_matches_nil (r : Regex) : r.nullable = true ↔ r.Matches [] := by
  induction r with
  | fail => simp [nullable, Matches]
  | eps => simp [nullable, Matches]
  | cls p => simp [nullable, Matches]
  | seq a b iha ihb =>
    simp only [nullable, Matches, Bool.and_eq_true, iha, ihb]
    constructor
    · rintro ⟨ha, hb⟩
      exact ⟨[], [], rfl, ha, hb⟩
    · rintro ⟨u, v, huv, ha, hb⟩
      have h := List.append_eq_nil.mp huv.symm
      rw [h.1] at ha
      rw [h.2] at hb
      exact ⟨ha, hb⟩
  | alt a b iha ihb => simp [nullable, Matches, iha, ihb]
  | star a _ =>
    simp only [nullable, Matches, true_iff]
    exact ⟨[], rfl, by simp⟩

theorem matches_star_cons (a : Regex) (c : CodeUnit) (s : JSString) :
    (star a).Matches (c :: s) ↔
      ∃ u v, s = u ++ v ∧ a.Matches (c :: u) ∧ (star a).Matches v := by
  constructor
  · rintro ⟨L, hL, hall⟩
    induction L with
    | nil => simp at hL
    | cons w L ih =>
      cases w with
      | nil =>
        apply ih
        · simpa using hL
        · intro u hu
          exact hall u (List.mem_cons_of_mem _ hu)
      | cons d w =>
        simp only [List.flatten_cons, List.cons_append, List.cons.injEq] at hL
        obtain ⟨hd, hs⟩ := hL
        refine ⟨w, L.flatten, hs, ?_, L, rfl, ?_⟩
        · rw [hd]
          exact hall (d :: w) (List.mem_cons_self _ _)
        · intro u hu
          exact hall u (List.mem_cons_of_mem _ hu)
  · rintro ⟨u, v, hs, hu, L, hv, hall⟩
    refine ⟨(c :: u) :: L, ?_, ?_⟩
    · simp [hs, hv]
    · intro w hw
      rcases List.mem_cons.mp hw with h | h
      · rw [h]
        exact hu
      · exact hall w h

theorem matches_seq_cons (a b : Regex) (c : CodeUnit) (s : JSString) :
    (seq a b).Matches (c :: s) ↔
      (a.Matches [] ∧ b.Matches (c :: s)) ∨
        ∃ u v, s = u ++ v ∧ a.Matches (c :: u) ∧ b.Matches v := by
  constructor
  · rintro ⟨u, v, huv, ha, hb⟩
    cases u with
    | nil =>
      left
      simp only [List.nil_append] at huv
      rw [huv]
      exact ⟨ha, hb⟩
    | cons d u =>
      right
      simp only [List.cons_append, List.cons.injEq] at huv
      obtain ⟨hd, hs⟩ := huv
      rw [hd]
      exact ⟨u, v, hs, ha, hb⟩
  · rintro (⟨ha, hb⟩ | ⟨u, v, hs, ha, hb⟩)
    · exact ⟨[], c :: s, rfl, ha, hb⟩
    · exact ⟨c :: u, v, by simp [hs], ha, hb⟩

theorem matches_deriv (r : Regex) (c : CodeUnit) (s : JSString) :
    (deriv c r).Matches s ↔ r.Matches (c :: s) := by
  induction r generalizing s with
  | fail => simp [deriv, Matches]
  | eps => simp [deriv, Matches]
  | cls p =>
    by_cases hp : p c = true
    · simp only [deriv, hp, if_true, Matches]
      constructor
      · intro h
        exact ⟨c, by rw [h], hp⟩
      · rintro ⟨d, hd, _⟩
        simp only [List.cons.injEq] at hd
        exact hd.2
    · simp only [deriv, hp, Matches, false_iff]
      rintro ⟨d, hd, hpd⟩
      simp only [List.cons.injEq] at hd
      rw [← hd.1] at hpd
      exact hp hpd
  | seq a b iha ihb =>
    rw [matches_seq_cons]
    by_cases hn : a.nullable = true
    · simp only [deriv, hn, if_true, Matches]
      rw [ihb, ← nullable_iff_matches_nil, hn]
      constructor
      · rintro (⟨u, v, hs, ha, hb⟩ | hb)
        · exact Or.inr ⟨u, v, hs, (iha u).mp ha, hb⟩
        · exact Or.inl ⟨rfl, hb⟩
      · rintro (⟨_, hb⟩ | ⟨u, v, hs, ha, hb⟩)
        · exact Or.inr hb
        · exact Or.inl ⟨u, v, hs, (iha u).mpr ha, hb⟩
    · simp only [deriv, hn, Matches]
      rw [← nullable_iff_matches_nil]
      constructor
      · rintro ⟨u, v, hs, ha, hb⟩
        exact Or.inr ⟨u, v, hs, (iha u).mp ha, hb⟩
      · rintro (⟨h, _⟩ | ⟨u, v, hs, ha, hb⟩)
        · exact absurd h hn
        · exact ⟨u, v, hs, (iha u).mpr ha, hb⟩
  | alt a b iha ihb => simp [deriv, Matches, iha, ihb]
  | star a iha =>
    rw [matches_star_cons]
    simp only [deriv]
    constructor
    · rintro ⟨u, v, hs, ha, hv⟩
      exact ⟨u, v, hs, (iha u).mp ha, hv⟩
    · rintro ⟨u, v, hs, ha, hv⟩
      exact ⟨u, v, hs, (iha u).mpr ha, hv⟩

/-- The derivative matcher accepts exactly the language of the expression. -/
theorem test_iff_matches (r : Regex) (s : JSString) : r.test s = true ↔ r.Matches s := by
  induction s generalizing r with
  | nil => simpa [test] using nullable_iff_matches_nil r
  | cons c s ih => rw [test, ih, matches_deriv]

theorem matches_star_cls (p : CodeUnit → Bool) (s : JSString) :
    (star (cls p)).Matches s ↔ ∀ c ∈ s, p c = true := by
  induction s with
  | nil =>
    simp only [List.not_mem_nil, false_imp_iff, implies_true, iff_true]
    exact ⟨[], rfl, by simp⟩
  | cons d s ih =>
    rw [matches_star_cons]
    constructor
    · rintro ⟨u, v, hs, ⟨e, he, hpe⟩, hv⟩
      simp only [List.cons.injEq] at he
      obtain ⟨hde, hu⟩ := he
      subst hu
      simp only [List.nil_append] at hs
      subst hs
      intro c hc
      rcases List.mem_cons.mp hc with h | h
      · rw [h, hde]
        exact hpe
      · exact ih.mp hv c h
    · intro h
      refine ⟨[], s, rfl, ⟨d, rfl, h d (List.mem_cons_self _ _)⟩, ih.mpr ?_⟩
      intro c hc
      exact h c (List.mem_cons_of_mem _ hc)

theorem matches_plus_cls (p : CodeUnit → Bool) (s : JSString) :
    (plus (cls p)).Matches s ↔ s ≠ [] ∧ ∀ c ∈ s, p c = true := by
  cases s with
  | nil =>
    simp only [ne_eq, not_true_eq_false, false_and, iff_false]
    rintro ⟨u, v, huv, ⟨e, he, _⟩, _⟩
    rw [he] at huv
    simp at huv
  | cons d s =>
    unfold plus
    rw [matches_seq_cons]
    simp only [ne_eq, reduceCtorEq, not_false_eq_true, true_and, List.mem_cons, forall_eq_or_imp]
    constructor
    · rintro (⟨⟨e, he, _⟩, _⟩ | ⟨u, v, hs, ⟨e, he, hpe⟩, hv⟩)
      · simp at he
      · simp only [List.cons.injEq] at he
        obtain ⟨hde, hu⟩ := he
        subst hu
        simp only [List.nil_append] at hs
        subst hs
        rw [hde]
        exact ⟨hpe, (matches_star_cls p _).mp hv⟩
    · rintro ⟨hd, hs⟩
      exact Or.inr ⟨[], s, rfl, ⟨d, rfl, hd⟩, (matches_star_cls p s).mpr hs⟩

theorem matches_times_cls (p : CodeUnit → Bool) (n : Nat) (s : JSString) :
    (times (cls p) n).Matches s ↔ s.length = n ∧ ∀ c ∈ s, p c = true := by
  induction n generalizing s with
  | zero =>
    simp only [times, Matches, List.length_eq_zero]
    constructor
    · intro h
      subst h
      simp
    · exact fun h => h.1
  | succ n ih =>
    simp only [times, Matches]
    constructor
    · rintro ⟨u, v, hs, ⟨e, he, hpe⟩, hv⟩
      obtain ⟨hlen, hall⟩ := (ih v).mp hv
      subst hs he
      refine ⟨by simp [hlen], ?_⟩
      intro c hc
      simp only [List.singleton_append, List.mem_cons] at hc
      rcases hc with h | h
      · rw [h]
        exact hpe
      · exact hall c h
    · rintro ⟨hlen, hall⟩
      cases s with
      | nil => simp at hlen
      | cons d s =>
        refine ⟨[d], s, rfl, ⟨d, rfl, hall d (List.mem_cons_self _ _)⟩, (ih s).mpr ⟨?_, ?_⟩⟩
        · simpa using hlen
        · intro c hc
          exact hall c (List.mem_cons_of_mem _ hc)

theorem matches_upTo_cls (p : CodeUnit → Bool) (n : Nat) (s : JSString) :
    (upTo (cls p) n).Matches s ↔ s.length ≤ n ∧ ∀ c ∈ s, p c = true := by
  induction n generalizing s with
  | zero =>
    simp only [upTo, Matches, Nat.le_zero, List.length_eq_zero]
    constructor
    · intro h
      subst h
      simp
    · exact fun h => h.1
  | succ n ih =>
    simp only [upTo, Matches]
    constructor
    · rintro (h | ⟨u, v, hs, ⟨e, he, hpe⟩, hv⟩)
      · subst h
        simp
      · obtain ⟨hlen, hall⟩ := (ih v).mp hv
        subst hs he
        refine ⟨by simp [hlen], ?_⟩
        intro c hc
        simp only [List.singleton_append, List.mem_cons] at hc
        rcases hc with h | h
        · rw [h]
          exact hpe
        · exact hall c h
    · rintro ⟨hlen, hall⟩
      cases s with
      | nil => exact Or.inl rfl
      | cons d s =>
        refine Or.inr ⟨[d], s, rfl, ⟨d, rfl, hall d (List.mem_cons_self _ _)⟩, (ih s).mpr ⟨?_, ?_⟩⟩
        · simpa using hlen
        · intro c hc
          exact hall c (List.mem_cons_of_mem _ hc)

theorem matches_range_cls (p : CodeUnit → Bool) (lo hi : Nat) (hle : lo ≤ hi) (s : JSString) :
    (range (cls p) lo hi).Matches s ↔
      (lo ≤ s.length ∧ s.length ≤ hi) ∧ ∀ c ∈ s, p c = true := by
  simp only [range, Matches, matches_times_cls, matches_upTo_cls]
  constructor
  · rintro ⟨u, v, hs, ⟨hul, hua⟩, ⟨hvl, hva⟩⟩
    subst hs
    refine ⟨⟨by simp [hul], by simp only [List.length_append]; omega⟩, ?_⟩
    intro c hc
    rcases List.mem_append.mp hc with h | h
    · exact hua c h
    · exact hva c h
  · rintro ⟨⟨h1, h2⟩, hall⟩
    refine ⟨s.take lo, s.drop lo, (List.take_append_drop lo s).symm, ⟨?_, ?_⟩, ⟨?_, ?_⟩⟩
    · simp [h1]
    · intro c hc
      exact hall c (List.mem_of_mem_take hc)
    · simp only [List.length_drop]
      omega
    · intro c hc
      exact hall c (List.mem_of_mem_drop hc)

end Regex

end FormValidator

namespace FormValidator

/-! ## Strings: `trim` -/

theorem trim_decompose (s : JSString) :
    ∃ a b, s = a ++ trim s ++ b ∧ (∀ c ∈ a, isWhiteSpace c = true) ∧
      (∀ c ∈ b, isWhiteSpace c = true) := by
  refine ⟨s.takeWhile isWhiteSpace,
    ((s.dropWhile isWhiteSpace).reverse.takeWhile isWhiteSpace).reverse, ?_, ?_, ?_⟩
  · have h1 : s = s.takeWhile isWhiteSpace ++ s.dropWhile isWhiteSpace :=
      (List.takeWhile_append_dropWhile isWhiteSpace s).symm
    have h2 : s.dropWhile isWhiteSpace =
        trim s ++ ((s.dropWhile isWhiteSpace).reverse.takeWhile isWhiteSpace).reverse := by
      unfold trim List.rdropWhile
      rw [← List.reverse_append, List.takeWhile_append_dropWhile, List.reverse_reverse]
    rw [List.append_assoc, ← h2]
    exact h1
  · intro c hc
    exact List.mem_takeWhile_imp hc
  · intro c hc
    exact List.mem_takeWhile_imp (List.mem_reverse.mp hc)

theorem trim_eq_nil_iff (s : JSString) :
    trim s = [] ↔ ∀ c ∈ s, isWhiteSpace c = true := by
  constructor
  · intro h
    obtain ⟨a, b, hs, ha, hb⟩ := trim_decompose s
    rw [h] at hs
    intro c hc
    rw [hs] at hc
    simp only [List.append_nil, List.mem_append] at hc
    rcases hc with h' | h'
    · exact ha c h'
    · exact hb c h'
  · intro h
    unfold trim
    rw [List.dropWhile_eq_nil_iff.mpr h]
    simp

theorem truthy_trim_iff (s : JSString) :
    truthy (trim s) = true ↔ ∃ c ∈ s, isWhiteSpace c = false := by
  have h := trim_eq_nil_iff s
  have h2 : truthy (trim s) = true ↔ ¬ trim s = [] := by
    cases hts : trim s <;> simp [truthy]
  rw [h2, h]
  push_neg
  simp

theorem truthy_trim_eq_false_iff (s : JSString) :
    truthy (trim s) = false ↔ ∀ c ∈ s, isWhiteSpace c = true := by
  rw [← trim_eq_nil_iff]
  cases hts : trim s <;> simp [truthy]

/-- The first code unit of a trimmed string is not white space. -/
theorem trim_head_not_whiteSpace (s : JSString) (c : CodeUnit) (t : JSString)
    (h : trim s = c :: t) : isWhiteSpace c = false := by
  unfold trim List.rdropWhile at h
  have hne : s.dropWhile isWhiteSpace ≠ [] := by
    intro h0
    rw [h0] at h
    simp at h
  have hhead := List.head_dropWhile_not isWhiteSpace s hne
  have hm : ∃ t1, s.dropWhile isWhiteSpace = c :: t1 := by
    generalize s.dropWhile isWhiteSpace = m at h hne
    have hm2 : m = (m.reverse.dropWhile isWhiteSpace).reverse ++
        (m.reverse.takeWhile isWhiteSpace).reverse := by
      rw [← List.reverse_append, List.takeWhile_append_dropWhile, List.reverse_reverse]
    rw [h] at hm2
    exact ⟨_, hm2⟩
  obtain ⟨t1, ht1⟩ := hm
  simp only [ht1, List.head_cons] at hhead
  exact hhead

/-- The last code unit of a trimmed string is not white space. -/
theorem trim_getLast_not_whiteSpace (s : JSString) (h : trim s ≠ []) :
    isWhiteSpace ((trim s).getLast h) = false := by
  have hlast := List.rdropWhile_last_not isWhiteSpace (s.dropWhile isWhiteSpace) h
  simpa [trim] using hlast

end FormValidator

namespace FormValidator

/-! ## Field validators -/

theorem identificationRegex_test_iff (s : JSString) :
    identificationRegex.test s = true ↔
      (6 ≤ s.length ∧ s.length ≤ 15) ∧ ∀ c ∈ s, isDigit c = true := by
  rw [Regex.test_iff_matches]
  exact Regex.matches_range_cls isDigit 6 15 (by decide) s

theorem phoneRegex_test_iff (s : JSString) :
    phoneRegex.test s = true ↔
      (7 ≤ s.length ∧ s.length ≤ 15) ∧ ∀ c ∈ s, isDigit c = true := by
  rw [Regex.test_iff_matches]
  exact Regex.matches_range_cls isDigit 7 15 (by decide) s

theorem nameRegex_test_iff (s : JSString) :
    nameRegex.test s = true ↔ s ≠ [] ∧ ∀ c ∈ s, isNameChar c = true := by
  rw [Regex.test_iff_matches]
  exact Regex.matches_plus_cls isNameChar s

theorem isNameChar_iff (c : CodeUnit) : isNameChar c = true ↔ SpanishLetterOrSpace c := by
  have e1 : 'a'.toNat = 0x61 := by decide
  have e2 : 'z'.toNat = 0x7A := by decide
  have e3 : 'A'.toNat = 0x41 := by decide
  have e4 : 'Z'.toNat = 0x5A := by decide
  have e5 : 'á'.toNat = 0xE1 := by decide
  have e6 : 'é'.toNat = 0xE9 := by decide
  have e7 : 'í'.toNat = 0xED := by decide
  have e8 : 'ó'.toNat = 0xF3 := by decide
  have e9 : 'ú'.toNat = 0xFA := by decide
  have e10 : 'Á'.toNat = 0xC1 := by decide
  have e11 : 'É'.toNat = 0xC9 := by decide
  have e12 : 'Í'.toNat = 0xCD := by decide
  have e13 : 'Ó'.toNat = 0xD3 := by decide
  have e14 : 'Ú'.toNat = 0xDA := by decide
  have e15 : 'ñ'.toNat = 0xF1 := by decide
  have e16 : 'Ñ'.toNat = 0xD1 := by decide
  unfold isNameChar SpanishLetterOrSpace
  rw [e1, e2, e3, e4, e5, e6, e7, e8, e9, e10, e11, e12, e13, e14, e15, e16]
  simp only [Bool.or_eq_true, Bool.and_eq_true, decide_eq_true_eq, beq_iff_eq,
    List.mem_cons, List.mem_singleton, List.not_mem_nil, or_false]
  by_cases hw : isWhiteSpace c = true
  · simp [hw]
  · simp only [hw, Bool.false_eq_true, or_false, false_or]
    clear e1 e2 e3 e4 e5 e6 e7 e8 e9 e10 e11 e12 e13 e14 e15 e16
    unfold CodeUnit at *
    constructor <;> intro h <;> omega

/-- Claim C9. `validateRequired`, the validator registered for `idType` and
`gender`, is valid exactly when the value is non-empty after trimming leading and
trailing white space, that is, when the value has a code unit that is not white
space. -/
theorem validateRequired_valid_iff (env : DateEnv) (value : JSString) (field : Element) :
    ((validateRequired value).isValid = true ↔ trim value ≠ []) ∧
    ((validateRequired value).isValid = true ↔ ∃ c ∈ value, isWhiteSpace c = false) ∧
    ((validators env).lookup "idType").map (fun v => v value field)
      = some (validateRequired value) ∧
    ((validators env).lookup "gender").map (fun v => v value field)
      = some (validateRequired value) := by
  have h1 : (validateRequired value).isValid = true ↔ trim value ≠ [] := by
    simp [validateRequired]
  refine ⟨h1, ?_, rfl, rfl⟩
  rw [h1, ← truthy_trim_iff]
  cases trim value <;> simp [truthy]

/-- Claim C8. The verdict of `validateTerms` is the checked state of the checkbox:
an unchecked checkbox is invalid whatever string is passed, and two calls with the
same checked state give the same result whatever the two strings are. -/
theorem validateTerms_isValid_eq_checked (value value' : JSString) (field field' : Element) :
    (validateTerms value field).isValid = field.checked ∧
    (field.checked = false → (validateTerms value field).isValid = false) ∧
    (field.checked = field'.checked →
      validateTerms value field = validateTerms value' field') := by
  refine ⟨rfl, fun h => h, fun h => ?_⟩
  simp [validateTerms, h]

theorem validateTerms_isValid_eq_checked_witness :
    ((⟨js "on", false, [], ""⟩ : Element).checked = false ∧
      (⟨js "on", false, [], ""⟩ : Element).checked
        = (⟨js "yes", false, ["is-valid"], ""⟩ : Element).checked) ∧
    ((validateTerms (js "on") ⟨js "on", false, [], ""⟩).isValid = false ∧
      validateTerms (js "on") ⟨js "on", false, [], ""⟩
        = validateTerms (js "yes") ⟨js "yes", false, ["is-valid"], ""⟩) :=
  ⟨⟨rfl, rfl⟩,
    (validateTerms_isValid_eq_checked (js "on") (js "yes") ⟨js "on", false, [], ""⟩
        ⟨js "yes", false, ["is-valid"], ""⟩).2.1 rfl,
    (validateTerms_isValid_eq_checked (js "on") (js "yes") ⟨js "on", false, [], ""⟩
        ⟨js "yes", false, ["is-valid"], ""⟩).2.2 rfl⟩

/-- Claim C5. `validateIdentification` is valid exactly when the trimmed value
consists only of decimal digits and has between 6 and 15 of them; a value that is
empty or all white space gets the message that the number is required, and every
other invalid value the message that it must have between 6 and 15 digits.  In
particular "12345" is invalid, "123456" is valid and the 16 digits
"1234567890123456" are invalid. -/
theorem validateIdentification_spec (value : JSString) :
    ((validateIdentification value).isValid = true ↔
      (∀ c ∈ trim value, isDigit c = true) ∧
        6 ≤ (trim value).length ∧ (trim value).length ≤ 15) ∧
    ((∀ c ∈ value, isWhiteSpace c = true) →
      validateIdentification value
        = ⟨false, "El número de identificación es obligatorio"⟩) ∧
    ((∃ c ∈ value, isWhiteSpace c = false) →
      (validateIdentification value).isValid = false →
      validateIdentification value
        = ⟨false, "El número de identificación debe contener entre 6 y 15 dígitos"⟩) ∧
    (validateIdentification (js "12345")).isValid = false ∧
    (validateIdentification (js "123456")).isValid = true ∧
    (validateIdentification (js "1234567890123456")).isValid = false := by
  refine ⟨?_, ?_, ?_, by decide, by decide, by decide⟩
  · by_cases ht : truthy (trim value) = true
    · by_cases hr : identificationRegex.test (trim value) = true
      · simp only [validateIdentification, ht, hr, Bool.not_true, Bool.false_eq_true,
          if_false, true_iff]
        have h := (identificationRegex_test_iff _).mp hr
        exact ⟨h.2, h.1.1, h.1.2⟩
      · have hr' : identificationRegex.test (trim value) = false := by simpa using hr
        simp only [validateIdentification, ht, hr', Bool.not_true, Bool.false_eq_true,
          if_false, Bool.not_false, if_true, false_iff]
        rintro ⟨h1, h2, h3⟩
        exact hr ((identificationRegex_test_iff _).mpr ⟨⟨h2, h3⟩, h1⟩)
    · have ht' : truthy (trim value) = false := by simpa using ht
      simp only [validateIdentification, ht', Bool.not_false, if_true, Bool.false_eq_true,
        false_iff]
      rintro ⟨_, h2, _⟩
      have hnil : trim value = [] := by
        cases hts : trim value with
        | nil => rfl
        | cons c t => simp [truthy, hts] at ht'
      rw [hnil] at h2
      simp at h2
  · intro h
    have ht : truthy (trim value) = false := (truthy_trim_eq_false_iff value).mpr h
    simp [validateIdentification, ht]
  · intro h hinv
    have ht : truthy (trim value) = true := (truthy_trim_iff value).mpr h
    by_cases hr : identificationRegex.test (trim value) = true
    · simp [validateIdentification, ht, hr] at hinv
    · have hr' : identificationRegex.test (trim value) = false := by simpa using hr
      simp [validateIdentification, ht, hr']

theorem validateIdentification_spec_witness :
    ((∃ c ∈ js "12a45", isWhiteSpace c = false) ∧
      (validateIdentification (js "12a45")).isValid = false) ∧
    validateIdentification (js "12a45")
      = ⟨false, "El número de identificación debe contener entre 6 y 15 dígitos"⟩ ∧
    (∀ c ∈ js "  ", isWhiteSpace c = true) ∧
    validateIdentification (js "  ")
      = ⟨false, "El número de identificación es obligatorio"⟩ :=
  ⟨⟨by decide, by decide⟩,
    (validateIdentification_spec (js "12a45")).2.2.1 (by decide) (by decide),
    by decide,
    (validateIdentification_spec (js "  ")).2.1 (by decide)⟩

end FormValidator

namespace FormValidator

theorem length_pos_of_trim_ne_nil {value : JSString} (h : trim value ≠ []) :
    truthy (trim value) = true := by
  cases hts : trim value with
  | nil => exact absurd hts h
  | cons c t => simp [truthy]

theorem whiteSpace_is_phoneSeparator {c : CodeUnit} (h : isWhiteSpace c = true) :
    isPhoneSeparator c = true := by
  simp [isPhoneSeparator, h]

/-- Claim C6. `validatePhone` is valid exactly when the value, with every white
space, hyphen and parenthesis deleted, consists only of decimal digits and has
between 7 and 15 of them; a value that is empty or all white space fails on the
first rule with the message that the number is required, and every other invalid
value gets the message that the phone must have between 7 and 15 digits. -/
theorem validatePhone_spec (value : JSString) :
    ((validatePhone value).isValid = true ↔
      (∀ c ∈ removeAll isPhoneSeparator value, isDigit c = true) ∧
        7 ≤ (removeAll isPhoneSeparator value).length ∧
        (removeAll isPhoneSeparator value).length ≤ 15) ∧
    (∀ c, c ∈ removeAll isPhoneSeparator value ↔
      c ∈ value ∧ isWhiteSpace c = false ∧ c ≠ '-'.toNat ∧ c ≠ '('.toNat ∧ c ≠ ')'.toNat) ∧
    ((∀ c ∈ value, isWhiteSpace c = true) →
      validatePhone value = ⟨false, "El número de teléfono es obligatorio"⟩) ∧
    ((∃ c ∈ value, isWhiteSpace c = false) →
      (validatePhone value).isValid = false →
      validatePhone value = ⟨false, "El teléfono debe tener entre 7 y 15 dígitos"⟩) := by
  refine ⟨?_, ?_, ?_, ?_⟩
  · by_cases ht : truthy (trim value) = true
    · by_cases hr : phoneRegex.test (removeAll isPhoneSeparator value) = true
      · simp only [validatePhone, ht, hr, Bool.not_true, Bool.false_eq_true, if_false,
          true_iff]
        have h := (phoneRegex_test_iff _).mp hr
        exact ⟨h.2, h.1.1, h.1.2⟩
      · have hr' : phoneRegex.test (removeAll isPhoneSeparator value) = false := by
          simpa using hr
        simp only [validatePhone, ht, hr', Bool.not_true, Bool.false_eq_true, if_false,
          Bool.not_false, if_true, false_iff]
        rintro ⟨h1, h2, h3⟩
        exact hr ((phoneRegex_test_iff _).mpr ⟨⟨h2, h3⟩, h1⟩)
    · have ht' : truthy (trim value) = false := by simpa using ht
      simp only [validatePhone, ht', Bool.not_false, if_true, Bool.false_eq_true, false_iff]
      rintro ⟨_, h2, _⟩
      have hall := (truthy_trim_eq_false_iff value).mp ht'
      have hnil : removeAll isPhoneSeparator value = [] := by
        unfold removeAll
        rw [List.filter_eq_nil_iff]
        intro c hc
        simp [whiteSpace_is_phoneSeparator (hall c hc)]
      rw [hnil] at h2
      simp at h2
  · intro c
    simp only [removeAll, List.mem_filter, isPhoneSeparator, Bool.not_eq_true',
      Bool.or_eq_false_iff, beq_eq_false_iff_ne, ne_eq]
    tauto
  · intro h
    have ht : truthy (trim value) = false := (truthy_trim_eq_false_iff value).mpr h
    simp [validatePhone, ht]
  · intro h hinv
    have ht : truthy (trim value) = true := (truthy_trim_iff value).mpr h
    by_cases hr : phoneRegex.test (removeAll isPhoneSeparator value) = true
    · simp [validatePhone, ht, hr] at hinv
    · have hr' : phoneRegex.test (removeAll isPhoneSeparator value) = false := by
        simpa using hr
      simp [validatePhone, ht, hr']

theorem validatePhone_spec_witness :
    ((∃ c ∈ js "300-12", isWhiteSpace c = false) ∧
      (validatePhone (js "300-12")).isValid = false) ∧
    validatePhone (js "300-12") = ⟨false, "El teléfono debe tener entre 7 y 15 dígitos"⟩ ∧
    (∀ c ∈ js " ", isWhiteSpace c = true) ∧
    validatePhone (js " ") = ⟨false, "El número de teléfono es obligatorio"⟩ :=
  ⟨⟨by decide, by decide⟩,
    (validatePhone_spec (js "300-12")).2.2.2 (by decide) (by decide),
    by decide,
    (validatePhone_spec (js " ")).2.2.1 (by decide)⟩

/-- Claim C7. `validateName` (first and last name) is valid exactly when the
trimmed value has length at least 2 and each of its code units is an ASCII letter,
white space, or one of á é í ó ú Á É Í Ó Ú ñ Ñ.  The rules fail in this order: empty
after trimming, then shorter than 2, then a code unit that is not allowed. -/
theorem validateName_spec (value : JSString) :
    ((validateName value).isValid = true ↔
      2 ≤ (trim value).length ∧ ∀ c ∈ trim value, SpanishLetterOrSpace c) ∧
    (trim value = [] → validateName value = ⟨false, "Este campo es obligatorio"⟩) ∧
    (trim value ≠ [] → (trim value).length < 2 →
      validateName value = ⟨false, "Debe tener al menos 2 caracteres"⟩) ∧
    (2 ≤ (trim value).length → (∃ c ∈ trim value, ¬ SpanishLetterOrSpace c) →
      validateName value = ⟨false, "Solo se permiten letras y espacios"⟩) ∧
    (2 ≤ (trim value).length → (∀ c ∈ trim value, SpanishLetterOrSpace c) →
      validateName value = ⟨true, "Nombre válido"⟩) := by
  have hreg : nameRegex.test (trim value) = true ↔
      trim value ≠ [] ∧ ∀ c ∈ trim value, SpanishLetterOrSpace c := by
    rw [nameRegex_test_iff]
    simp only [isNameChar_iff]
  have hnil : trim value = [] → validateName value = ⟨false, "Este campo es obligatorio"⟩ := by
    intro h
    simp [validateName, h, truthy]
  have hshort : trim value ≠ [] → (trim value).length < 2 →
      validateName value = ⟨false, "Debe tener al menos 2 caracteres"⟩ := by
    intro h1 h2
    simp [validateName, length_pos_of_trim_ne_nil h1, h2]
  have hbad : 2 ≤ (trim value).length → (∃ c ∈ trim value, ¬ SpanishLetterOrSpace c) →
      validateName value = ⟨false, "Solo se permiten letras y espacios"⟩ := by
    intro h1 h2
    have hne : trim value ≠ [] := by
      intro h0
      rw [h0] at h1
      simp at h1
    have hr : nameRegex.test (trim value) = false := by
      rw [← Bool.not_eq_true, hreg]
      rintro ⟨_, hall⟩
      obtain ⟨c, hc, hnot⟩ := h2
      exact hnot (hall c hc)
    have h3 : ¬ (trim value).length < 2 := by omega
    simp [validateName, length_pos_of_trim_ne_nil hne, h3, hr]
  have hgood : 2 ≤ (trim value).length → (∀ c ∈ trim value, SpanishLetterOrSpace c) →
      validateName value = ⟨true, "Nombre válido"⟩ := by
    intro h1 h2
    have hne : trim value ≠ [] := by
      intro h0
      rw [h0] at h1
      simp at h1
    have hr : nameRegex.test (trim value) = true := hreg.mpr ⟨hne, h2⟩
    have h3 : ¬ (trim value).length < 2 := by omega
    simp [validateName, length_pos_of_trim_ne_nil hne, h3, hr]
  refine ⟨?_, hnil, hshort, hbad, hgood⟩
  constructor
  · intro hv
    by_cases h0 : trim value = []
    · rw [hnil h0] at hv
      simp at hv
    · by_cases h1 : (trim value).length < 2
      · rw [hshort h0 h1] at hv
        simp at hv
      · have h2 : 2 ≤ (trim value).length := by omega
        refine ⟨h2, ?_⟩
        by_contra hall
        push_neg at hall
        rw [hbad h2 hall] at hv
        simp at hv
  · rintro ⟨h1, h2⟩
    rw [hgood h1 h2]

theorem validateName_spec_witness :
    (trim (js "  ") = [] ∧ validateName (js "  ") = ⟨false, "Este campo es obligatorio"⟩) ∧
    ((trim (js " J ") ≠ [] ∧ (trim (js " J ")).length < 2) ∧
      validateName (js " J ") = ⟨false, "Debe tener al menos 2 caracteres"⟩) ∧
    ((2 ≤ (trim (js "J4")).length ∧ ∃ c ∈ trim (js "J4"), ¬ SpanishLetterOrSpace c) ∧
      validateName (js "J4") = ⟨false, "Solo se permiten letras y espacios"⟩) ∧
    ((2 ≤ (trim (js "Ñu")).length ∧ ∀ c ∈ trim (js "Ñu"), SpanishLetterOrSpace c) ∧
      validateName (js "Ñu") = ⟨true, "Nombre válido"⟩) :=
  ⟨⟨by decide, (validateName_spec (js "  ")).2.1 (by decide)⟩,
    ⟨⟨by decide, by decide⟩,
      (validateName_spec (js " J ")).2.2.1 (by decide) (by decide)⟩,
    ⟨⟨by decide, ⟨52, by decide, by decide⟩⟩,
      (validateName_spec (js "J4")).2.2.2.1 (by decide) ⟨52, by decide, by decide⟩⟩,
    ⟨⟨by decide, by decide⟩,
      (validateName_spec (js "Ñu")).2.2.2.2 (by decide) (by decide)⟩⟩

end FormValidator

namespace FormValidator

/-! ## Electronic mail -/

theorem splitAux_of_not_mem (sep : CodeUnit) (r cur : JSString) (h : sep ∉ r) :
    splitAux sep r cur = [cur.reverse ++ r] := by
  induction r generalizing cur with
  | nil => simp [splitAux]
  | cons c r ih =>
    have hc : c ≠ sep := fun e => h (by simp [e])
    have hr : sep ∉ r := fun e => h (List.mem_cons_of_mem _ e)
    simp [splitAux, hc, ih (c :: cur) hr]

theorem splitAux_append_sep (sep : CodeUnit) (l r cur : JSString) (h : sep ∉ l) :
    splitAux sep (l ++ sep :: r) cur = (cur.reverse ++ l) :: splitAux sep r [] := by
  induction l generalizing cur with
  | nil => simp [splitAux]
  | cons c l ih =>
    have hc : c ≠ sep := fun e => h (by simp [e])
    have hl : sep ∉ l := fun e => h (List.mem_cons_of_mem _ e)
    simp [splitAux, hc, ih (c :: cur) hl]

theorem split_one_sep (sep : CodeUnit) (l r : JSString) (hl : sep ∉ l) (hr : sep ∉ r) :
    split sep (l ++ sep :: r) = [l, r] := by
  unfold split
  rw [splitAux_append_sep sep l r [] hl, splitAux_of_not_mem sep r [] hr]
  simp

theorem afterFirstAt_append (l r : JSString) (hl : '@'.toNat ∉ l) :
    afterFirstAt (l ++ '@'.toNat :: r) = r := by
  unfold afterFirstAt
  induction l with
  | nil => simp [List.dropWhile]
  | cons c l ih =>
    have hc : c ≠ '@'.toNat := fun e => hl (by simp [e])
    have hl' : '@'.toNat ∉ l := fun e => hl (List.mem_cons_of_mem _ e)
    have hb : (c != '@'.toNat) = true := by simpa using hc
    simp only [List.cons_append, List.dropWhile_cons, hb, if_true]
    exact ih hl'

theorem matches_chr (c : CodeUnit) (s : JSString) : (Regex.chr c).Matches s ↔ s = [c] := by
  simp only [Regex.chr, Regex.Matches, beq_iff_eq]
  constructor
  · rintro ⟨d, hs, hd⟩
    rw [hs, hd]
  · intro h
    exact ⟨c, h, rfl⟩

theorem isEmailChar_iff (c : CodeUnit) :
    isEmailChar c = true ↔ isWhiteSpace c = false ∧ c ≠ '@'.toNat := by
  simp [isEmailChar]

theorem matches_seq (a b : Regex) (s : JSString) :
    (Regex.seq a b).Matches s ↔ ∃ u v, s = u ++ v ∧ a.Matches u ∧ b.Matches v :=
  Iff.rfl

theorem emailRegex_test_iff (s : JSString) : emailRegex.test s = true ↔ EmailShape s := by
  rw [Regex.test_iff_matches]
  unfold emailRegex
  simp only [matches_seq, matches_chr, Regex.matches_plus_cls]
  constructor
  · rintro ⟨l, v1, hs, ⟨hl1, hl2⟩, u2, v2, hv1, hu2, d, v3, hv2, ⟨hd1, hd2⟩, u4, t, hv3, hu4,
      ht1, ht2⟩
    refine ⟨l, d, t, ?_, hl1, hd1, ht1, ?_⟩
    · rw [hs, hv1, hu2, hv2, hv3, hu4]
      simp
    · intro c hc
      rw [← isEmailChar_iff]
      simp only [List.mem_append] at hc
      rcases hc with (h | h) | h
      · exact hl2 c h
      · exact hd2 c h
      · exact ht2 c h
  · rintro ⟨l, d, t, hs, hl, hd, ht, hall⟩
    have hmem : ∀ w : JSString, (∀ c ∈ w, c ∈ l ++ d ++ t) → ∀ c ∈ w, isEmailChar c = true :=
      fun w hw c hc => (isEmailChar_iff c).mpr (hall c (hw c hc))
    refine ⟨l, '@'.toNat :: (d ++ '.'.toNat :: t), hs, ⟨hl, ?_⟩,
      ['@'.toNat], d ++ '.'.toNat :: t, rfl, rfl,
      d, '.'.toNat :: t, rfl, ⟨hd, ?_⟩,
      ['.'.toNat], t, rfl, rfl, ⟨ht, ?_⟩⟩
    · exact hmem l (fun c hc => by simp [hc])
    · exact hmem d (fun c hc => by simp [hc])
    · exact hmem t (fun c hc => by simp [hc])

/-- For a value whose trimmed form has the shape of an address, the array made by
`value.split('@')` has exactly two pieces and the second, which is also the text
after the first `@`, has at least three code units. -/
theorem split_of_emailShape (value : JSString) (h : EmailShape (trim value)) :
    ∃ p r, split '@'.toNat value = [p, r] ∧ afterFirstAt value = r ∧ 3 ≤ r.length := by
  obtain ⟨l, d, t, hs, hl, hd, ht, hall⟩ := h
  obtain ⟨a, b, hv, ha, hb⟩ := trim_decompose value
  have hat : isWhiteSpace '@'.toNat = false := by decide
  have hna : '@'.toNat ∉ a := fun hm => by
    have := ha _ hm
    rw [hat] at this
    exact Bool.noConfusion this
  have hnb : '@'.toNat ∉ b := fun hm => by
    have := hb _ hm
    rw [hat] at this
    exact Bool.noConfusion this
  have hnl : '@'.toNat ∉ l := fun hm =>
    (hall _ (List.mem_append.mpr (Or.inl (List.mem_append.mpr (Or.inl hm))))).2 rfl
  have hnd : '@'.toNat ∉ d := fun hm =>
    (hall _ (List.mem_append.mpr (Or.inl (List.mem_append.mpr (Or.inr hm))))).2 rfl
  have hnt : '@'.toNat ∉ t := fun hm => (hall _ (List.mem_append.mpr (Or.inr hm))).2 rfl
  have hdot : '.'.toNat ≠ '@'.toNat := by decide
  have hval : value = (a ++ l) ++ '@'.toNat :: (d ++ '.'.toNat :: t ++ b) := by
    rw [hv, hs]
    simp
  have hleft : '@'.toNat ∉ a ++ l := by
    simp only [List.mem_append, not_or]
    exact ⟨hna, hnl⟩
  have hright : '@'.toNat ∉ d ++ '.'.toNat :: t ++ b := by
    simp only [List.mem_append, List.mem_cons, not_or]
    exact ⟨⟨hnd, fun e => hdot e.symm, hnt⟩, hnb⟩
  refine ⟨a ++ l, d ++ '.'.toNat :: t ++ b, ?_, ?_, ?_⟩
  · rw [hval]
    exact split_one_sep _ _ _ hleft hright
  · rw [hval]
    exact afterFirstAt_append _ _ hleft
  · have h1 : 1 ≤ d.length := List.length_pos.mpr hd
    have h2 : 1 ≤ t.length := List.length_pos.mpr ht
    simp only [List.length_append, List.length_cons]
    omega

/-- Claim C4. `validateEmail` is valid exactly when the trimmed value is non-empty,
the trimmed value matches `^[^\s@]+@[^\s@]+\.[^\s@]+$` (the pattern accepts exactly
the strings of `EmailShape`), and the text after the first `@` of the value has
length at least 3.  In particular "a@b.co" is valid and "a@bc" and "a@b" are
invalid. -/
theorem validateEmail_spec (value : JSString) :
    ((validateEmail value).isValid = true ↔
      trim value ≠ [] ∧ EmailShape (trim value) ∧ 3 ≤ (afterFirstAt value).length) ∧
    (emailRegex.test (trim value) = true ↔ EmailShape (trim value)) ∧
    (validateEmail (js "a@b.co")).isValid = true ∧
    (validateEmail (js "a@bc")).isValid = false ∧
    (validateEmail (js "a@b")).isValid = false := by
  refine ⟨?_, emailRegex_test_iff _, by decide, by decide, by decide⟩
  by_cases ht : truthy (trim value) = true
  · have hne : trim value ≠ [] := by
      intro h0
      simp [h0, truthy] at ht
    by_cases hr : emailRegex.test (trim value) = true
    · have hshape := (emailRegex_test_iff _).mp hr
      obtain ⟨p, r, hsplit, hafter, hlen⟩ := split_of_emailShape value hshape
      have hnot : ¬ r.length < 3 := by omega
      have hv : (validateEmail value).isValid = true := by
        simp [validateEmail, ht, hr, hsplit, hnot, -Char.reduceToNat]
      simp only [hv, true_iff]
      refine ⟨hne, hshape, ?_⟩
      rw [hafter]
      exact hlen
    · have hr' : emailRegex.test (trim value) = false := by simpa using hr
      have hv : (validateEmail value).isValid = false := by
        simp [validateEmail, ht, hr']
      simp only [hv, Bool.false_eq_true, false_iff]
      rintro ⟨_, hshape, _⟩
      exact hr ((emailRegex_test_iff _).mpr hshape)
  · have ht' : truthy (trim value) = false := by simpa using ht
    have hv : (validateEmail value).isValid = false := by
      simp [validateEmail, ht']
    simp only [hv, Bool.false_eq_true, false_iff]
    rintro ⟨hne, _, _⟩
    exact ht (length_pos_of_trim_ne_nil hne)

end FormValidator

namespace FormValidator

/-! ## Birth date -/

theorem computeAge_some (today birth : DateFields) :
    computeAge (some today) (some birth) = some (specAge today birth) := by
  unfold computeAge specAge
  simp only [getFullYear, getMonth, getDate, Option.map_some', numSub, numLt, numEq,
    Bool.or_eq_true, Bool.and_eq_true, decide_eq_true_eq]
  have h1 : today.month - birth.month < 0 ↔ today.month < birth.month := by omega
  have h2 : today.month - birth.month = 0 ↔ today.month = birth.month := by omega
  simp only [h1, h2]
  split <;> rfl

theorem computeAge_invalid (today : JSDate) : computeAge today none = none := by
  cases today <;> rfl

/-- The rule chain of `validateBirthDate` on a value that the `Date` constructor
parses: future, then younger than 13, then older than 120, then valid. -/
theorem validateBirthDate_of_parsed (env : DateEnv) (value : JSString) (birth : DateFields)
    (hne : value ≠ []) (hparse : env.newDate value = some birth) :
    validateBirthDate env value =
      if env.now.time < birth.time then
        ⟨false, "La fecha de nacimiento no puede ser futura"⟩
      else if specAge env.now birth < 13 then
        ⟨false, "Debes tener al menos 13 años para registrarte"⟩
      else if 120 < specAge env.now birth then
        ⟨false, "Por favor verifica la fecha de nacimiento"⟩
      else
        ⟨true, "Fecha de nacimiento válida"⟩ := by
  have ht : truthy value = true := by
    cases value with
    | nil => exact absurd rfl hne
    | cons c t => rfl
  unfold validateBirthDate
  simp only [ht, hparse, computeAge_some, Bool.not_true, Bool.false_eq_true, if_false,
    dateGt, valueOf, Option.map_some', numLt, decide_eq_true_eq]

theorem validateBirthDate_empty (env : DateEnv) :
    validateBirthDate env [] = ⟨false, "La fecha de nacimiento es obligatoria"⟩ := by
  rfl

/-- On a non-empty value that the `Date` constructor cannot parse no rule of
`validateBirthDate` fails: every comparison with `NaN` is false. -/
theorem validateBirthDate_of_invalid (env : DateEnv) (value : JSString)
    (hne : value ≠ []) (hbad : env.newDate value = none) :
    validateBirthDate env value = ⟨true, "Fecha de nacimiento válida"⟩ := by
  have ht : truthy value = true := by
    cases value with
    | nil => exact absurd rfl hne
    | cons c t => rfl
  unfold validateBirthDate
  simp only [ht, hbad, computeAge_invalid, Bool.not_true, Bool.false_eq_true, if_false,
    dateGt, valueOf, Option.map_none', Option.map_some', numLt]

/-- Claim C1 (the code does the opposite). For every non-empty string that the
`Date` constructor cannot parse, `validateBirthDate` returns `isValid = true` with
the success message: the fields of an Invalid Date are `NaN`, every comparison with
`NaN` is false, and so no rule fails. -/
theorem validateBirthDate_unparseable_accepted (env : DateEnv) (value : JSString)
    (hne : value ≠ []) (hbad : env.newDate value = none) :
    (validateBirthDate env value).isValid = true ∧
    (validateBirthDate env value).message = "Fecha de nacimiento válida" := by
  rw [validateBirthDate_of_invalid env value hne hbad]
  exact ⟨rfl, rfl⟩

theorem validateBirthDate_unparseable_accepted_witness :
    (js "abc" ≠ [] ∧ exampleEnv.newDate (js "abc") = none ∧
      (validateBirthDate exampleEnv (js "abc")).isValid = true) ∧
    (js " " ≠ [] ∧ exampleEnv.newDate (js " ") = none ∧
      (validateBirthDate exampleEnv (js " ")).isValid = true) :=
  ⟨⟨by decide, by decide,
      (validateBirthDate_unparseable_accepted exampleEnv (js "abc") (by decide)
        (by decide)).1⟩,
    ⟨by decide, by decide,
      (validateBirthDate_unparseable_accepted exampleEnv (js " ") (by decide)
        (by decide)).1⟩⟩

/-- Claim C2 (the code breaks it on "abc"). With the clock at any date, the text
"abc" is not empty and is not a date after now, its computed age is `NaN`, so it is
not the case that 13 <= age <= 120, and yet `validateBirthDate` returns
`isValid = true`. -/
theorem validateBirthDate_abc_valid_with_nan_age (now : DateFields) :
    js "abc" ≠ [] ∧
    dateGt (none : JSDate) (some now) = false ∧
    computeAge (some now) none = none ∧
    (¬ ∃ age : Int, computeAge (some now) none = some age ∧ 13 ≤ age ∧ age ≤ 120) ∧
    validateBirthDate ⟨fun _ => none, now⟩ (js "abc")
      = ⟨true, "Fecha de nacimiento válida"⟩ := by
  refine ⟨by decide, rfl, rfl, ?_, ?_⟩
  · rintro ⟨age, h, _⟩
    simp [computeAge_invalid] at h
  · exact validateBirthDate_of_invalid ⟨fun _ => none, now⟩ (js "abc") (by decide) rfl

/-- The age rule on the calendar fields that the `Date` object reports (which need
not be those written in the text): when the reported fields are (Y-13, M, D) and
the time value is not after now the value is accepted, and when they are those of
the following calendar day it is rejected. -/
theorem validateBirthDate_on_reported_fields (env : DateEnv) (value next : JSString)
    (birth birthNext : DateFields)
    (hvalue : value ≠ []) (hparse : env.newDate value = some birth)
    (hbirth : (birth.fullYear, birth.month, birth.date)
      = (env.now.fullYear - 13, env.now.month, env.now.date))
    (hpast : birth.time ≤ env.now.time)
    (hnext : next ≠ []) (hparseNext : env.newDate next = some birthNext)
    (hbirthNext : (birthNext.fullYear, birthNext.month, birthNext.date)
      = nextDay (env.now.fullYear - 13) env.now.month env.now.date) :
    (validateBirthDate env value).isValid = true ∧
    (validateBirthDate env next).isValid = false := by
  constructor
  · rw [validateBirthDate_of_parsed env value birth hvalue hparse]
    simp only [Prod.mk.injEq] at hbirth
    obtain ⟨hy, hm, hd⟩ := hbirth
    have hage : specAge env.now birth = 13 := by
      unfold specAge
      rw [hy, hm, hd]
      simp
    have h1 : ¬ env.now.time < birth.time := by omega
    simp [h1, hage]
  · rw [validateBirthDate_of_parsed env next birthNext hnext hparseNext]
    have hage : specAge env.now birthNext < 13 := by
      unfold nextDay at hbirthNext
      unfold specAge
      split at hbirthNext
      · simp only [Prod.mk.injEq] at hbirthNext
        obtain ⟨hy, hm, hd⟩ := hbirthNext
        split <;> omega
      · split at hbirthNext
        · simp only [Prod.mk.injEq] at hbirthNext
          obtain ⟨hy, hm, hd⟩ := hbirthNext
          split <;> omega
        · simp only [Prod.mk.injEq] at hbirthNext
          obtain ⟨hy, hm, hd⟩ := hbirthNext
          split <;> omega
    by_cases h1 : env.now.time < birth.time <;> by_cases h2 : env.now.time < birthNext.time <;>
      simp [h2, hage]

/-- Claim C3 (the code breaks it west of UTC). In the zone America/Bogota, with the
clock at 07:00 of 6 November 2026, the text "2013-11-07" is the calendar day after
the day exactly 13 years before today, so the person is one day short of 13.  The
`Date` built from the text is midnight UTC, whose local fields are those of
6 November 2013; the computed age is 13 and `validateBirthDate` returns
`isValid = true`.  In the zone UTC the same text is rejected. -/
theorem validateBirthDate_accepts_day_after_west_of_utc :
    (bogotaEnv.now.fullYear, bogotaEnv.now.month, bogotaEnv.now.date) = (2026, 10, 6) ∧
    isoDateFields (js "2013-11-07") = some (nextDay (2026 - 13) 10 6) ∧
    bogotaEnv.newDate (js "2013-11-07") = some ⟨1383782400000, 2013, 10, 6⟩ ∧
    computeAge (some bogotaEnv.now) (bogotaEnv.newDate (js "2013-11-07")) = some 13 ∧
    validateBirthDate bogotaEnv (js "2013-11-07") = ⟨true, "Fecha de nacimiento válida"⟩ ∧
    dateInZone 0 1383782400000 = ⟨1383782400000, 2013, 10, 7⟩ ∧
    validateBirthDate exampleEnv (js "2013-11-07")
      = ⟨false, "Debes tener al menos 13 años para registrarte"⟩ := by
  refine ⟨by decide, by decide, by decide, by decide, by decide, by decide, by decide⟩

end FormValidator

namespace FormValidator

/-! ## The whole form -/

theorem SameInputs.refl (d : Document) : SameInputs d d :=
  fun _ => rfl

theorem SameInputs.trans {d1 d2 d3 : Document} (h12 : SameInputs d1 d2)
    (h23 : SameInputs d2 d3) : SameInputs d1 d3 :=
  fun id => (h12 id).trans (h23 id)

/-- The visual update touches neither the raw value nor the checked state of any
element. -/
theorem displayFieldResult_sameInputs (doc : Document) (fieldName : String)
    (result : ValidationResult) : SameInputs (displayFieldResult doc fieldName result) doc := by
  intro id
  unfold displayFieldResult
  cases hf : doc fieldName with
  | none => rfl
  | some field =>
    cases he : doc (fieldName ++ "-error") with
    | none => rfl
    | some errorDiv =>
      simp only
      by_cases h1 : id = fieldName ++ "-error"
      · subst h1
        cases result.isValid <;> simp [setElement, he, Element.inputs]
      · by_cases h2 : id = fieldName
        · subst h2
          cases result.isValid <;> simp [setElement, h1, hf, Element.inputs]
        · cases result.isValid <;> simp [setElement, h1, h2]

/-- Every registered validator reads only the raw value and the checked state. -/
theorem validators_read_inputs (env : DateEnv) (p : String × Validator)
    (hp : p ∈ validators env) (e e' : Element) (h : e.inputs = e'.inputs) :
    p.2 e.value e = p.2 e'.value e' := by
  simp only [Element.inputs, Prod.mk.injEq] at h
  obtain ⟨hv, hc⟩ := h
  simp only [validators, List.mem_cons, List.mem_singleton, List.not_mem_nil, or_false] at hp
  rcases hp with h | h | h | h | h | h | h | h | h <;> subst h <;>
    simp [validateTerms, hv, hc]

theorem lookup_mem {β : Type} (l : List (String × β)) (k : String) (v : β)
    (h : l.lookup k = some v) : (k, v) ∈ l := by
  induction l with
  | nil => simp at h
  | cons p l ih =>
    obtain ⟨k', v'⟩ := p
    by_cases hk : k = k'
    · subst hk
      simp only [List.lookup, beq_self_eq_true, Option.some.injEq] at h
      subst h
      exact List.mem_cons_self _ _
    · have hb : (k == k') = false := by simpa using hk
      simp only [List.lookup, hb] at h
      exact List.mem_cons_of_mem _ (ih h)

/-- The verdict of `validateField` depends only on raw values and checked states. -/
theorem validateField_verdict_congr (env : DateEnv) (d d' : Document) (fieldName : String)
    (h : SameInputs d d') :
    (validateField env d fieldName).1 = (validateField env d' fieldName).1 := by
  have hid := h fieldName
  unfold validateField
  cases hf : d fieldName with
  | none =>
    rw [hf] at hid
    cases hf' : d' fieldName with
    | none => rfl
    | some e' =>
      rw [hf'] at hid
      simp at hid
  | some e =>
    rw [hf] at hid
    cases hf' : d' fieldName with
    | none =>
      rw [hf'] at hid
      simp at hid
    | some e' =>
      rw [hf'] at hid
      simp only [Option.map_some', Option.some.injEq] at hid
      cases hl : (validators env).lookup fieldName with
      | none => rfl
      | some validator =>
        have hcongr :=
          validators_read_inputs env (fieldName, validator) (lookup_mem _ _ _ hl) e e' hid
        simp only at hcongr
        simp only [hcongr]

theorem validateField_sameInputs (env : DateEnv) (d : Document) (fieldName : String) :
    SameInputs (validateField env d fieldName).2 d := by
  unfold validateField
  cases hf : d fieldName with
  | none => exact SameInputs.refl d
  | some e =>
    cases hl : (validators env).lookup fieldName with
    | none => exact SameInputs.refl d
    | some validator => exact displayFieldResult_sameInputs d fieldName _

/-- A field that fails validation is present on the page, before and after the
visual update. -/
theorem validateField_false_present (env : DateEnv) (d : Document) (fieldName : String)
    (h : (validateField env d fieldName).1 = false) :
    ∃ e, (validateField env d fieldName).2 fieldName = some e := by
  have hs := validateField_sameInputs env d fieldName fieldName
  cases hf : d fieldName with
  | none =>
    simp [validateField, hf] at h
  | some e =>
    rw [hf] at hs
    cases hf' : (validateField env d fieldName).2 fieldName with
    | none =>
      rw [hf'] at hs
      simp at hs
    | some e' => exact ⟨e', rfl⟩

/-- One iteration of the loop of `validateAllFields`, for a page with the same
inputs as the page `doc` at the start of the loop. -/
theorem validateAllFieldsStep_eq (env : DateEnv) (doc : Document) (st : AllFieldsState)
    (fieldName : String) (h : SameInputs st.doc doc) :
    validateAllFieldsStep env st fieldName =
      { isFormValid := st.isFormValid && (validateField env doc fieldName).1,
        errors := st.errors ++
          (if (validateField env doc fieldName).1 then [] else [getFieldLabel fieldName]),
        doc := (validateField env st.doc fieldName).2 } := by
  have hv := validateField_verdict_congr env st.doc doc fieldName h
  unfold validateAllFieldsStep
  cases hr : (validateField env st.doc fieldName).1 with
  | true =>
    rw [hr] at hv
    simp [← hv, hr]
  | false =>
    rw [hr] at hv
    obtain ⟨e, he⟩ := validateField_false_present env st.doc fieldName hr
    simp [← hv, he, hr]

theorem validateAllFields_foldl (env : DateEnv) (doc : Document) (names : List String)
    (st : AllFieldsState) (h : SameInputs st.doc doc) :
    (names.foldl (validateAllFieldsStep env) st).isFormValid
        = (st.isFormValid && names.all (fun n => (validateField env doc n).1)) ∧
    (names.foldl (validateAllFieldsStep env) st).errors
        = st.errors ++
          (names.filter (fun n => !(validateField env doc n).1)).map getFieldLabel ∧
    (names.foldl (validateAllFieldsStep env) st).doc
        = names.foldl (fun d n => (validateField env d n).2) st.doc := by
  induction names generalizing st with
  | nil => simp
  | cons n names ih =>
    have hstep := validateAllFieldsStep_eq env doc st n h
    have hdoc : SameInputs (validateAllFieldsStep env st n).doc doc := by
      rw [hstep]
      exact (validateField_sameInputs env st.doc n).trans h
    obtain ⟨ih1, ih2, ih3⟩ := ih (validateAllFieldsStep env st n) hdoc
    simp only [List.foldl_cons]
    refine ⟨?_, ?_, ?_⟩
    · rw [ih1, hstep]
      simp [Bool.and_assoc]
    · rw [ih2, hstep]
      cases hv : (validateField env doc n).1 <;> simp [List.filter_cons, hv]
    · rw [ih3, hstep]

end FormValidator

namespace FormValidator

/-- Claim C10. For every page, `validateAllFields` runs `validateField` on the nine
registered names in registry order, each on the page left by the one before and
none skipped after a failure; `errors` is the list of the labels of exactly the
fields whose `validateField` returns false, in that order, and `isValid` is true
exactly when `errors` is empty.  So one failing field gives `errors` of length 1
with its label, and no failing field gives `isValid = true` and `errors = []`. -/
theorem validateAllFields_spec (env : DateEnv) (doc : Document) :
    (validators env).map Prod.fst = fieldNames ∧
    fieldNames.map getFieldLabel =
      ["Número de identificación", "Tipo de documento", "Nombres", "Apellidos",
       "Fecha de nacimiento", "Género", "Número de teléfono", "Correo electrónico",
       "Términos y condiciones"] ∧
    (validateAllFields env doc).2
      = fieldNames.foldl (fun d n => (validateField env d n).2) doc ∧
    (validateAllFields env doc).1.errors
      = (fieldNames.filter (fun n => !(validateField env doc n).1)).map getFieldLabel ∧
    ((validateAllFields env doc).1.isValid = true ↔ (validateAllFields env doc).1.errors = []) ∧
    (∀ n, fieldNames.filter (fun n => !(validateField env doc n).1) = [n] →
      (validateAllFields env doc).1 = ⟨false, [getFieldLabel n]⟩) ∧
    (fieldNames.filter (fun n => !(validateField env doc n).1) = [] →
      (validateAllFields env doc).1 = ⟨true, []⟩) := by
  have hnames : (validators env).map Prod.fst = fieldNames := rfl
  obtain ⟨h1, h2, h3⟩ := validateAllFields_foldl env doc fieldNames
    { isFormValid := true, errors := [], doc := doc } (SameInputs.refl doc)
  simp only [Bool.true_and, List.nil_append] at h1 h2 h3
  have hvalid : (validateAllFields env doc).1.isValid
      = fieldNames.all (fun n => (validateField env doc n).1) := by
    simp only [validateAllFields, hnames]
    exact h1
  have herrors : (validateAllFields env doc).1.errors
      = (fieldNames.filter (fun n => !(validateField env doc n).1)).map getFieldLabel := by
    simp only [validateAllFields, hnames]
    exact h2
  have hall : fieldNames.all (fun n => (validateField env doc n).1) = true ↔
      fieldNames.filter (fun n => !(validateField env doc n).1) = [] := by
    rw [List.all_eq_true, List.filter_eq_nil_iff]
    simp
  refine ⟨hnames, by decide, ?_, herrors, ?_, ?_, ?_⟩
  · simp only [validateAllFields, hnames]
    exact h3
  · rw [hvalid, herrors, hall]
    simp
  · intro n hn
    have hv : (validateAllFields env doc).1.isValid = false := by
      rw [hvalid, ← Bool.not_eq_true, hall, hn]
      simp
    have he : (validateAllFields env doc).1.errors = [getFieldLabel n] := by
      rw [herrors, hn]
      rfl
    cases hs : (validateAllFields env doc).1 with
    | mk v e =>
      rw [hs] at hv he
      simp only at hv he
      rw [hv, he]
  · intro hn
    have hv : (validateAllFields env doc).1.isValid = true := by
      rw [hvalid, hall, hn]
    have he : (validateAllFields env doc).1.errors = [] := by
      rw [herrors, hn]
      rfl
    cases hs : (validateAllFields env doc).1 with
    | mk v e =>
      rw [hs] at hv he
      simp only at hv he
      rw [hv, he]

set_option maxRecDepth 100000 in
theorem validateAllFields_spec_witness :
    fieldNames.filter (fun n => !(validateField exampleEnv examplePage n).1) = ["email"] ∧
    (validateAllFields exampleEnv examplePage).1 = ⟨false, ["Correo electrónico"]⟩ :=
  ⟨by decide,
    (validateAllFields_spec exampleEnv examplePage).2.2.2.2.2.1 "email" (by decide)⟩

end FormValidator

namespace FormValidator

/-! ## Registry and labels -/

/-- Claim C11. The names with a registered validator and the names with a label
are the same nine names, each once; so for every registered name `getFieldLabel`
returns the label of the table and never the raw field name. -/
theorem registry_and_labels_agree (env : DateEnv) :
    (validators env).map Prod.fst = fieldNames ∧
    labels.map Prod.fst = fieldNames ∧
    fieldNames = ["identification", "idType", "firstName", "lastName", "birthDate",
      "gender", "phone", "email", "terms"] ∧
    fieldNames.Nodup ∧
    (∀ n ∈ fieldNames, labels.lookup n = some (getFieldLabel n) ∧ getFieldLabel n ≠ n) ∧
    (∀ n ∈ fieldNames, ∃ v, (validators env).lookup n = some v) := by
  refine ⟨rfl, rfl, rfl, by decide, by decide, ?_⟩
  intro n hn
  simp only [fieldNames, List.mem_cons, List.mem_singleton, List.not_mem_nil, or_false] at hn
  rcases hn with h | h | h | h | h | h | h | h | h <;> subst h <;> exact ⟨_, rfl⟩

theorem registry_and_labels_agree_witness :
    "email" ∈ fieldNames ∧
    labels.lookup "email" = some (getFieldLabel "email") ∧
    getFieldLabel "email" ≠ "email" ∧
    getFieldLabel "email" = "Correo electrónico" ∧
    ∃ v, (validators exampleEnv).lookup "email" = some v :=
  ⟨by decide,
    ((registry_and_labels_agree exampleEnv).2.2.2.2.1 "email" (by decide)).1,
    ((registry_and_labels_agree exampleEnv).2.2.2.2.1 "email" (by decide)).2,
    by decide,
    (registry_and_labels_agree exampleEnv).2.2.2.2.2 "email" (by decide)⟩

end FormValidator

namespace FormValidator

/-! ## Electronic mail: the rule on the domain -/

theorem validateEmail_eq_withoutDomainRule (value : JSString) :
    validateEmail value = validateEmailWithoutDomainRule value := by
  by_cases ht : truthy (trim value) = true
  · have hne : trim value ≠ [] := by
      intro h0
      simp [h0, truthy] at ht
    by_cases hr : emailRegex.test (trim value) = true
    · obtain ⟨p, r, hsplit, _, hlen⟩ :=
        split_of_emailShape value ((emailRegex_test_iff _).mp hr)
      have hnot : ¬ r.length < 3 := by omega
      simp [validateEmail, validateEmailWithoutDomainRule, ht, hne, hr, hsplit, hnot,
        -Char.reduceToNat]
    · have hr' : emailRegex.test (trim value) = false := by simpa using hr
      simp [validateEmail, validateEmailWithoutDomainRule, ht, hne, hr']
  · have ht' : truthy (trim value) = false := by simpa using ht
    have hnil : trim value = [] := by
      cases hts : trim value with
      | nil => rfl
      | cons c t => simp [truthy, hts] at ht'
    unfold validateEmail validateEmailWithoutDomainRule
    simp [hnil, truthy]

/-- Claim C17. The rule on the length of the domain never fails: when the trimmed
value matches the pattern, the text after the first `@` of the value already has
length at least 3.  So `validateEmail` equals the validator without that rule, it
never returns the message that the domain is not valid, and it is valid exactly
when the trimmed value is non-empty and matches the pattern. -/
theorem validateEmail_domain_rule_never_fails (value : JSString) :
    (emailRegex.test (trim value) = true → 3 ≤ (afterFirstAt value).length) ∧
    (emailRegex.test (trim value) = true →
      ∃ p r, split '@'.toNat value = [p, r] ∧ 3 ≤ r.length) ∧
    validateEmail value = validateEmailWithoutDomainRule value ∧
    (validateEmail value).message ≠ "El dominio del correo no es válido" ∧
    ((validateEmail value).isValid = true ↔
      trim value ≠ [] ∧ emailRegex.test (trim value) = true) := by
  have heq := validateEmail_eq_withoutDomainRule value
  refine ⟨?_, ?_, heq, ?_, ?_⟩
  · intro hr
    obtain ⟨p, r, _, hafter, hlen⟩ :=
      split_of_emailShape value ((emailRegex_test_iff _).mp hr)
    rw [hafter]
    exact hlen
  · intro hr
    obtain ⟨p, r, hsplit, _, hlen⟩ :=
      split_of_emailShape value ((emailRegex_test_iff _).mp hr)
    exact ⟨p, r, hsplit, hlen⟩
  · rw [heq]
    unfold validateEmailWithoutDomainRule
    split
    · decide
    · split <;> decide
  · rw [heq]
    unfold validateEmailWithoutDomainRule
    by_cases hnil : trim value = []
    · simp [hnil]
    · by_cases hr : emailRegex.test (trim value) = true
      · simp [hnil, hr]
      · simp [hnil, hr]

theorem validateEmail_domain_rule_never_fails_witness :
    emailRegex.test (trim (js " a@b.c ")) = true ∧
    3 ≤ (afterFirstAt (js " a@b.c ")).length ∧
    ∃ p r, split '@'.toNat (js " a@b.c ") = [p, r] ∧ 3 ≤ r.length :=
  ⟨by decide,
    (validateEmail_domain_rule_never_fails (js " a@b.c ")).1 (by decide),
    (validateEmail_domain_rule_never_fails (js " a@b.c ")).2.1 (by decide)⟩

/-! ## Clearing a field error -/

theorem error_id_ne (fieldName : String) : fieldName ++ "-error" ≠ fieldName := by
  intro h
  have hlen := congrArg String.length h
  simp [String.length_append] at hlen
  have : "-error".length = 6 := by decide
  omega

theorem not_mem_classRemove (classes : List String) (token : String) :
    token ∉ classRemove classes token := by
  simp [classRemove]

theorem mem_classRemove_of_ne (classes : List String) (token c : String) (h : c ≠ token) :
    c ∈ classRemove classes token ↔ c ∈ classes := by
  simp [classRemove, h]

theorem clearFieldError_of_not_invalid (doc : Document) (fieldName : String)
    (h : ∀ field, doc fieldName = some field → "is-invalid" ∉ field.classList) :
    clearFieldError doc fieldName = doc := by
  unfold clearFieldError
  cases hf : doc fieldName with
  | none => rfl
  | some field =>
    have hc : field.classList.contains "is-invalid" = false := by
      simpa using h field hf
    simp only [hc, Bool.false_eq_true, if_false]

theorem clearFieldError_at_field (doc : Document) (fieldName : String) (field : Element)
    (hf : doc fieldName = some field) (hinv : "is-invalid" ∈ field.classList) :
    clearFieldError doc fieldName fieldName
      = some { field with classList := classRemove field.classList "is-invalid" } := by
  have hc : field.classList.contains "is-invalid" = true := by simpa using hinv
  have hne := error_id_ne fieldName
  unfold clearFieldError
  simp only [hf, hc, if_true]
  cases doc (fieldName ++ "-error") with
  | none => simp [setElement]
  | some errorDiv => simp [setElement, hne.symm]

theorem clearFieldError_at_error (doc : Document) (fieldName : String) (field : Element)
    (hf : doc fieldName = some field) (hinv : "is-invalid" ∈ field.classList) :
    clearFieldError doc fieldName (fieldName ++ "-error")
      = (doc (fieldName ++ "-error")).map (fun e => { e with textContent := "" }) := by
  have hc : field.classList.contains "is-invalid" = true := by simpa using hinv
  have hne := error_id_ne fieldName
  unfold clearFieldError
  simp only [hf, hc, if_true]
  cases he : doc (fieldName ++ "-error") with
  | none => simp [setElement, hne, he]
  | some errorDiv => simp [setElement]

theorem clearFieldError_elsewhere (doc : Document) (fieldName id : String)
    (h1 : id ≠ fieldName) (h2 : id ≠ fieldName ++ "-error") :
    clearFieldError doc fieldName id = doc id := by
  unfold clearFieldError
  cases hf : doc fieldName with
  | none => rfl
  | some field =>
    simp only
    split
    · cases doc (fieldName ++ "-error") with
      | none => simp [setElement, h1]
      | some errorDiv => simp [setElement, h1, h2]
    · rfl

/-- Claim C16. `clearFieldError` is idempotent on the page.  When the field carries
the class `is-invalid`, that class is removed (the other classes, the raw value and
the checked state stay), the text of its error holder becomes empty and nothing
else changes; when it does not (or there is no such field) nothing changes. -/
theorem clearFieldError_spec (doc : Document) (fieldName : String) :
    clearFieldError (clearFieldError doc fieldName) fieldName = clearFieldError doc fieldName ∧
    (∀ field, doc fieldName = some field → "is-invalid" ∈ field.classList →
      clearFieldError doc fieldName fieldName
        = some { field with classList := classRemove field.classList "is-invalid" } ∧
      "is-invalid" ∉ classRemove field.classList "is-invalid" ∧
      (∀ c, c ≠ "is-invalid" →
        (c ∈ classRemove field.classList "is-invalid" ↔ c ∈ field.classList)) ∧
      clearFieldError doc fieldName (fieldName ++ "-error")
        = (doc (fieldName ++ "-error")).map (fun e => { e with textContent := "" }) ∧
      (∀ id, id ≠ fieldName → id ≠ fieldName ++ "-error" →
        clearFieldError doc fieldName id = doc id)) ∧
    ((∀ field, doc fieldName = some field → "is-invalid" ∉ field.classList) →
      clearFieldError doc fieldName = doc) := by
  refine ⟨?_, ?_, clearFieldError_of_not_invalid doc fieldName⟩
  · apply clearFieldError_of_not_invalid
    intro field hf
    cases hd : doc fieldName with
    | none =>
      have hsame : clearFieldError doc fieldName = doc :=
        clearFieldError_of_not_invalid doc fieldName (fun f h => by rw [hd] at h; cases h)
      rw [hsame, hd] at hf
      cases hf
    | some field0 =>
      by_cases hinv : "is-invalid" ∈ field0.classList
      · rw [clearFieldError_at_field doc fieldName field0 hd hinv] at hf
        simp only [Option.some.injEq] at hf
        rw [← hf]
        exact not_mem_classRemove _ _
      · have hsame : clearFieldError doc fieldName = doc :=
          clearFieldError_of_not_invalid doc fieldName (fun f h => by
            rw [hd] at h
            simp only [Option.some.injEq] at h
            rw [← h]
            exact hinv)
        rw [hsame, hd] at hf
        simp only [Option.some.injEq] at hf
        rw [← hf]
        exact hinv
  · intro field hf hinv
    exact ⟨clearFieldError_at_field doc fieldName field hf hinv,
      not_mem_classRemove _ _,
      fun c hc => mem_classRemove_of_ne _ _ c hc,
      clearFieldError_at_error doc fieldName field hf hinv,
      fun id h1 h2 => clearFieldError_elsewhere doc fieldName id h1 h2⟩

theorem clearFieldError_spec_witness :
    (pageWithError "email" = some ⟨js "ana@correo", false, ["form-control", "is-invalid"], ""⟩ ∧
      "is-invalid" ∈ ["form-control", "is-invalid"]) ∧
    clearFieldError pageWithError "email" "email"
      = some ⟨js "ana@correo", false, ["form-control"], ""⟩ ∧
    clearFieldError pageWithError "email" "email-error"
      = some ⟨[], false, ["invalid-feedback"], ""⟩ ∧
    clearFieldError pageWithError "phone" = pageWithError :=
  ⟨⟨rfl, by decide⟩,
    ((clearFieldError_spec pageWithError "email").2.1
      ⟨js "ana@correo", false, ["form-control", "is-invalid"], ""⟩ rfl (by decide)).1,
    ((clearFieldError_spec pageWithError "email").2.1
      ⟨js "ana@correo", false, ["form-control", "is-invalid"], ""⟩ rfl (by decide)).2.2.2.1,
    (clearFieldError_spec pageWithError "phone").2.2
      (fun field h => by simp [pageWithError] at h)⟩

end FormValidator

namespace FormValidator

/-! ## Fields missing from the page -/

theorem validateAllFields_errors (env : DateEnv) (doc : Document) :
    (validateAllFields env doc).1.errors
      = (fieldNames.filter (fun n => !(validateField env doc n).1)).map getFieldLabel := by
  have hnames : (validators env).map Prod.fst = fieldNames := rfl
  obtain ⟨_, h2, _⟩ := validateAllFields_foldl env doc fieldNames
    { isFormValid := true, errors := [], doc := doc } (SameInputs.refl doc)
  simp only [List.nil_append] at h2
  simp only [validateAllFields, hnames]
  exact h2

theorem validateAllFields_isValid (env : DateEnv) (doc : Document) :
    (validateAllFields env doc).1.isValid
      = fieldNames.all (fun n => (validateField env doc n).1) := by
  have hnames : (validators env).map Prod.fst = fieldNames := rfl
  obtain ⟨h1, _, _⟩ := validateAllFields_foldl env doc fieldNames
    { isFormValid := true, errors := [], doc := doc } (SameInputs.refl doc)
  simp only [Bool.true_and] at h1
  simp only [validateAllFields, hnames]
  exact h1

theorem validateAllFields_doc (env : DateEnv) (doc : Document) :
    (validateAllFields env doc).2
      = fieldNames.foldl (fun d n => (validateField env d n).2) doc := by
  have hnames : (validators env).map Prod.fst = fieldNames := rfl
  obtain ⟨_, _, h3⟩ := validateAllFields_foldl env doc fieldNames
    { isFormValid := true, errors := [], doc := doc } (SameInputs.refl doc)
  simp only [validateAllFields, hnames]
  exact h3

theorem getFieldLabel_injective_on_fieldNames :
    ∀ a ∈ fieldNames, ∀ b ∈ fieldNames, getFieldLabel a = getFieldLabel b → a = b := by
  decide

theorem getFieldLabel_not_fieldName :
    ∀ a ∈ fieldNames, ∀ b ∈ fieldNames, getFieldLabel a ≠ b := by
  decide

theorem validateField_of_absent (env : DateEnv) (doc : Document) (name : String)
    (h : doc name = none) : validateField env doc name = (true, doc) := by
  simp [validateField, h]

theorem validateFieldFull_of_absent (env : DateEnv) (doc : Document) (name : String)
    (h : doc name = none) :
    validateFieldFull env doc name = (FieldOutcome.returns true, doc) := by
  simp [validateFieldFull, h]

theorem validateFieldFull_of_not_inherited (env : DateEnv) (doc : Document)
    (name : String) (h : objectPrototype name = none) :
    validateFieldFull env doc name
      = (FieldOutcome.returns (validateField env doc name).1,
          (validateField env doc name).2) := by
  unfold validateFieldFull validateField
  cases doc name with
  | none => rfl
  | some field =>
    cases (validators env).lookup name with
    | none => simp only [h]
    | some validator => rfl

theorem objectPrototype_of_registered :
    ∀ name ∈ fieldNames, objectPrototype name = none := by
  decide

theorem validateFieldFull_of_registered (env : DateEnv) (doc : Document) (name : String)
    (h : name ∈ fieldNames) :
    validateFieldFull env doc name
      = (FieldOutcome.returns (validateField env doc name).1,
          (validateField env doc name).2) :=
  validateFieldFull_of_not_inherited env doc name (objectPrototype_of_registered name h)

theorem validateAllFields_skips_absent (env : DateEnv) (doc : Document) (name : String)
    (hmem : name ∈ fieldNames) (habsent : doc name = none) :
    getFieldLabel name ∉ (validateAllFields env doc).1.errors ∧
    name ∉ (validateAllFields env doc).1.errors := by
  have htrue : (validateField env doc name).1 = true := by
    rw [validateField_of_absent env doc name habsent]
  rw [validateAllFields_errors]
  constructor
  · intro hin
    obtain ⟨m, hm, hlabel⟩ := List.mem_map.mp hin
    obtain ⟨hm1, hm2⟩ := List.mem_filter.mp hm
    have hmn := getFieldLabel_injective_on_fieldNames m hm1 name hmem hlabel
    rw [hmn, htrue] at hm2
    simp at hm2
  · intro hin
    obtain ⟨m, hm, hlabel⟩ := List.mem_map.mp hin
    obtain ⟨hm1, _⟩ := List.mem_filter.mp hm
    exact getFieldLabel_not_fieldName m hm1 name hmem hlabel

theorem validateAllFields_errors_not_raw (env : DateEnv) (doc : Document) :
    ∀ e ∈ (validateAllFields env doc).1.errors, e ∉ fieldNames := by
  intro e he hmem
  rw [validateAllFields_errors] at he
  obtain ⟨m, hm, hlabel⟩ := List.mem_map.mp he
  obtain ⟨hm1, _⟩ := List.mem_filter.mp hm
  exact getFieldLabel_not_fieldName m hm1 e hmem hlabel

/-- Claim C18 (the code breaks it at names inherited from `Object.prototype`).  The
name "toString" has no registered validator: it is not a key of the registry.  On a
page with an input of that id and its error holder, `validateField("toString")`
does not return true and does not leave the page alone: the lookup
`this.validators["toString"]` finds `Object.prototype.toString`, the method calls
it, marks the input `is-invalid` and returns `undefined`.  With the name
"hasOwnProperty" and an input of that id the method throws.  At a registered name
the absent element does give true: a page without the terms checkbox passes for
that field and the summary does not list it. -/
theorem validateField_inherited_name_not_true (env : DateEnv) :
    (validators env).lookup "toString" = none ∧
    "toString" ∉ fieldNames ∧
    pageToString "toString" = some ⟨js "x", false, [], ""⟩ ∧
    objectPrototype "toString" = some InheritedCall.returnsOther ∧
    (validateFieldFull env pageToString "toString").1 = FieldOutcome.returnsUndefined ∧
    (validateFieldFull env pageToString "toString").1 ≠ FieldOutcome.returns true ∧
    (validateFieldFull env pageToString "toString").2 "toString"
      = some ⟨js "x", false, ["is-invalid"], ""⟩ ∧
    (validateFieldFull env pageToString "toString").2 "toString"
      ≠ pageToString "toString" ∧
    (validateFieldFull env (setElement pageToString "hasOwnProperty" ⟨js "x", false, [], ""⟩)
      "hasOwnProperty").1 = FieldOutcome.throws ∧
    validateFieldFull env pageWithoutTerms "terms"
      = (FieldOutcome.returns true, pageWithoutTerms) ∧
    "Términos y condiciones" ∉ (validateAllFields env pageWithoutTerms).1.errors := by
  refine ⟨rfl, by decide, rfl, rfl, rfl, ?_, rfl, ?_, rfl, rfl,
    (validateAllFields_skips_absent env pageWithoutTerms "terms" (by decide) rfl).1⟩
  · intro h
    have h2 : (validateFieldFull env pageToString "toString").1
        = FieldOutcome.returnsUndefined := rfl
    rw [h2] at h
    exact FieldOutcome.noConfusion h
  · intro h
    have h2 : (validateFieldFull env pageToString "toString").2 "toString"
        = some ⟨js "x", false, ["is-invalid"], ""⟩ := rfl
    rw [h2] at h
    revert h
    decide

end FormValidator

namespace FormValidator

/-! ## The phone formatter -/

theorem removeAll_nonDigit (s : JSString) :
    removeAll (fun c => !isDigit c) s = s.filter isDigit := by
  simp [removeAll]

theorem js_hyphen : js "-" = ['-'.toNat] := by
  decide

theorem formatDigits_cases (v : JSString) :
    (v.length = 0 → formatDigits v = []) ∧
    (0 < v.length → v.length ≤ 3 → formatDigits v = v) ∧
    (3 < v.length → v.length ≤ 6 → formatDigits v = v.take 3 ++ '-'.toNat :: v.drop 3) ∧
    (6 < v.length →
      formatDigits v =
        v.take 3 ++ '-'.toNat :: ((v.drop 3).take 3 ++ '-'.toNat :: (v.drop 6).take 4)) := by
  refine ⟨?_, ?_, ?_, ?_⟩
  · intro h
    simp [formatDigits, h]
  · intro h1 h2
    simp [formatDigits, h1, h2]
  · intro h1 h2
    have h0 : 0 < v.length := by omega
    have h3 : ¬ v.length ≤ 3 := by omega
    simp [formatDigits, h0, h3, h2, slice, sliceFrom, js_hyphen, -Char.reduceToNat]
  · intro h1
    have h0 : 0 < v.length := by omega
    have h3 : ¬ v.length ≤ 3 := by omega
    have h6 : ¬ v.length ≤ 6 := by omega
    simp [formatDigits, h0, h3, h6, slice, sliceFrom, js_hyphen, List.drop_take,
      -Char.reduceToNat]

theorem take_ten_split (v : JSString) :
    v.take 3 ++ ((v.drop 3).take 3 ++ (v.drop 6).take 4) = v.take 10 := by
  have h1 : v.take 10 = v.take 6 ++ (v.drop 6).take 4 := List.take_add v 6 4
  have h2 : v.take 6 = v.take 3 ++ (v.drop 3).take 3 := List.take_add v 3 3
  rw [h1, h2, List.append_assoc]

/-- The formatter keeps the digits of a digit string, the first ten at most. -/
theorem formatDigits_filter (v : JSString) (hv : ∀ c ∈ v, isDigit c = true) :
    (formatDigits v).filter isDigit = v.take 10 := by
  have hfilter : ∀ w : JSString, (∀ c ∈ w, c ∈ v) → w.filter isDigit = w := fun w hw =>
    List.filter_eq_self.mpr (fun c hc => hv c (hw c hc))
  have hhyphen : isDigit '-'.toNat = false := by decide
  obtain ⟨c0, c1, c2, c3⟩ := formatDigits_cases v
  by_cases h0 : v.length = 0
  · rw [c0 h0]
    have : v = [] := List.length_eq_zero.mp h0
    simp [this]
  · by_cases h3 : v.length ≤ 3
    · rw [c1 (by omega) h3, hfilter v (fun _ h => h), List.take_of_length_le (by omega)]
    · by_cases h6 : v.length ≤ 6
      · rw [c2 (by omega) h6, List.filter_append, List.filter_cons, hhyphen,
          hfilter _ (fun _ h => List.mem_of_mem_take h),
          hfilter _ (fun _ h => List.mem_of_mem_drop h)]
        simp only [Bool.false_eq_true, if_false]
        rw [List.take_append_drop, List.take_of_length_le (by omega)]
      · rw [c3 (by omega), List.filter_append, List.filter_cons, hhyphen,
          List.filter_append, List.filter_cons, hhyphen,
          hfilter _ (fun _ h => List.mem_of_mem_take h),
          hfilter _ (fun _ h => List.mem_of_mem_drop (List.mem_of_mem_take h)),
          hfilter _ (fun _ h => List.mem_of_mem_drop (List.mem_of_mem_take h))]
        simp only [Bool.false_eq_true, if_false]
        exact take_ten_split v

/-- Only the first ten code units of the digit string matter. -/
theorem formatDigits_take_ten (v : JSString) : formatDigits (v.take 10) = formatDigits v := by
  obtain ⟨_, _, _, c3⟩ := formatDigits_cases v
  obtain ⟨_, _, _, d3⟩ := formatDigits_cases (v.take 10)
  by_cases h : v.length ≤ 10
  · rw [List.take_of_length_le h]
  · have hlen : (v.take 10).length = 10 := by
      rw [List.length_take]
      omega
    rw [c3 (by omega), d3 (by omega)]
    have e1 : (v.take 10).take 3 = v.take 3 := by
      rw [List.take_take]
      rfl
    have e2 : ((v.take 10).drop 3).take 3 = (v.drop 3).take 3 := by
      rw [List.drop_take, List.take_take]
      rfl
    have e3 : ((v.take 10).drop 6).take 4 = (v.drop 6).take 4 := by
      rw [List.drop_take, List.take_take]
      rfl
    rw [e1, e2, e3]

theorem mem_formatDigits (v : JSString) (c : CodeUnit) (hc : c ∈ formatDigits v) :
    c ∈ v ∨ c = '-'.toNat := by
  obtain ⟨c0, c1, c2, c3⟩ := formatDigits_cases v
  by_cases h0 : v.length = 0
  · rw [c0 h0] at hc
    simp at hc
  · by_cases h3 : v.length ≤ 3
    · rw [c1 (by omega) h3] at hc
      exact Or.inl hc
    · by_cases h6 : v.length ≤ 6
      · rw [c2 (by omega) h6] at hc
        rcases List.mem_append.mp hc with h | h
        · exact Or.inl (List.mem_of_mem_take h)
        · rcases List.mem_cons.mp h with h | h
          · exact Or.inr h
          · exact Or.inl (List.mem_of_mem_drop h)
      · rw [c3 (by omega)] at hc
        rcases List.mem_append.mp hc with h | h
        · exact Or.inl (List.mem_of_mem_take h)
        · rcases List.mem_cons.mp h with h | h
          · exact Or.inr h
          · rcases List.mem_append.mp h with h | h
            · exact Or.inl (List.mem_of_mem_drop (List.mem_of_mem_take h))
            · rcases List.mem_cons.mp h with h | h
              · exact Or.inr h
              · exact Or.inl (List.mem_of_mem_drop (List.mem_of_mem_take h))

theorem mem_formatPhoneNumber (input : JSString) (c : CodeUnit)
    (hc : c ∈ formatPhoneNumber input) : isDigit c = true ∨ c = '-'.toNat := by
  unfold formatPhoneNumber at hc
  rw [removeAll_nonDigit] at hc
  rcases mem_formatDigits _ c hc with h | h
  · exact Or.inl (List.mem_filter.mp h).2
  · exact Or.inr h

theorem formatPhoneNumber_filter (input : JSString) :
    (formatPhoneNumber input).filter isDigit = (input.filter isDigit).take 10 := by
  unfold formatPhoneNumber
  rw [removeAll_nonDigit]
  exact formatDigits_filter _ (fun c hc => (List.mem_filter.mp hc).2)

/-- Claim C19. The formatting step of `FormUtils.formatPhoneNumber` is idempotent:
formatting a formatted value gives the same string.  The result holds only digits
and hyphens, and its digits are the first ten digits of the input at most. -/
theorem formatPhoneNumber_idempotent (input : JSString) :
    formatPhoneNumber (formatPhoneNumber input) = formatPhoneNumber input ∧
    (∀ c ∈ formatPhoneNumber input, isDigit c = true ∨ c = '-'.toNat) ∧
    (formatPhoneNumber input).filter isDigit = (input.filter isDigit).take 10 ∧
    ((formatPhoneNumber input).filter isDigit).length ≤ 10 ∧
    formatPhoneNumber (js "300") = js "300" ∧
    formatPhoneNumber (js "30012") = js "300-12" ∧
    formatPhoneNumber (js "(300) 123 45678 9") = js "300-123-4567" := by
  refine ⟨?_, mem_formatPhoneNumber input, formatPhoneNumber_filter input, ?_,
    by decide, by decide, by decide⟩
  · have h := formatPhoneNumber_filter input
    have e : ∀ s, formatPhoneNumber s = formatDigits (s.filter isDigit) := fun s => by
      unfold formatPhoneNumber
      rw [removeAll_nonDigit]
    rw [e (formatPhoneNumber input), h, formatDigits_take_ten, ← e input]
  · rw [formatPhoneNumber_filter, List.length_take]
    omega

theorem formatPhoneNumber_idempotent_witness :
    '-'.toNat ∈ formatPhoneNumber (js "3001234567") ∧
    (isDigit '-'.toNat = true ∨ '-'.toNat = '-'.toNat) :=
  ⟨by decide, (formatPhoneNumber_idempotent (js "3001234567")).2.1 '-'.toNat (by decide)⟩

end FormValidator

namespace FormValidator

/-! ## The phone formatter and the phone validator -/

theorem validatePhone_isValid_iff (value : JSString) :
    (validatePhone value).isValid = true ↔
      truthy (trim value) = true ∧
        phoneRegex.test (removeAll isPhoneSeparator value) = true := by
  unfold validatePhone
  by_cases ht : truthy (trim value) = true
  · by_cases hr : phoneRegex.test (removeAll isPhoneSeparator value) = true
    · simp [ht, hr]
    · simp [ht, hr]
  · simp [ht]

theorem digit_not_whiteSpace (c : CodeUnit) (h : isDigit c = true) :
    isWhiteSpace c = false := by
  simp only [isDigit, Bool.and_eq_true, decide_eq_true_eq] at h
  simp only [isWhiteSpace, Bool.or_eq_false_iff, Bool.and_eq_false_iff, beq_eq_false_iff_ne,
    decide_eq_false_iff_not, ne_eq]
  unfold CodeUnit at *
  omega

theorem digit_not_phoneSeparator (c : CodeUnit) (h : isDigit c = true) :
    isPhoneSeparator c = false := by
  have hw := digit_not_whiteSpace c h
  simp only [isDigit, Bool.and_eq_true, decide_eq_true_eq] at h
  have e1 : '-'.toNat = 45 := by decide
  have e2 : '('.toNat = 40 := by decide
  have e3 : ')'.toNat = 41 := by decide
  simp only [isPhoneSeparator, hw, e1, e2, e3, Bool.false_or, Bool.or_eq_false_iff,
    beq_eq_false_iff_ne, ne_eq]
  unfold CodeUnit at *
  omega

/-- Deleting the separators from a formatted value leaves its digits. -/
theorem removeAll_formatPhoneNumber (input : JSString) :
    removeAll isPhoneSeparator (formatPhoneNumber input) = (input.filter isDigit).take 10 := by
  rw [← formatPhoneNumber_filter]
  unfold removeAll
  apply List.filter_congr
  intro c hc
  rcases mem_formatPhoneNumber input c hc with h | h
  · rw [digit_not_phoneSeparator c h, h]
    rfl
  · rw [h]
    decide

/-- Claim C20. The value produced by the formatting step of `formatPhoneNumber`
passes `validatePhone` exactly when the input holds at least 7 decimal digits. -/
theorem validatePhone_formatPhoneNumber (input : JSString) :
    ((validatePhone (formatPhoneNumber input)).isValid = true ↔
      7 ≤ (input.filter isDigit).length) ∧
    (validatePhone (formatPhoneNumber (js "300 12 34"))).isValid = true ∧
    (validatePhone (formatPhoneNumber (js "300 12 3"))).isValid = false ∧
    (validatePhone (formatPhoneNumber (js "3001234567890123456"))).isValid = true := by
  refine ⟨?_, by decide, by decide, by decide⟩
  rw [validatePhone_isValid_iff, removeAll_formatPhoneNumber, phoneRegex_test_iff]
  constructor
  · rintro ⟨_, ⟨h7, _⟩, _⟩
    rw [List.length_take] at h7
    omega
  · intro h7
    refine ⟨?_, ⟨?_, ?_⟩, ?_⟩
    · rw [truthy_trim_iff]
      have hne : (formatPhoneNumber input).filter isDigit ≠ [] := by
        rw [formatPhoneNumber_filter]
        intro h0
        have hlen := congrArg List.length h0
        rw [List.length_take] at hlen
        simp only [List.length_nil] at hlen
        omega
      obtain ⟨c, hc⟩ := List.exists_mem_of_ne_nil _ hne
      obtain ⟨hmem, hdig⟩ := List.mem_filter.mp hc
      exact ⟨c, hmem, digit_not_whiteSpace c hdig⟩
    · rw [List.length_take]
      omega
    · rw [List.length_take]
      omega
    · intro c hc
      exact (List.mem_filter.mp (List.mem_of_mem_take hc)).2

end FormValidator

namespace FormValidator

/-! ## Submission -/

theorem failingLabels_eq_errors (env : DateEnv) (doc : Document) :
    (validateAllFields env doc).1.errors = failingLabels env doc :=
  validateAllFields_errors env doc

theorem failingLabels_eq_nil_iff (env : DateEnv) (doc : Document) :
    failingLabels env doc = [] ↔ (validateAllFields env doc).1.isValid = true := by
  rw [validateAllFields_isValid, List.all_eq_true]
  simp [failingLabels, List.filter_eq_nil_iff]

theorem validationErrorMessage_single (label : String) :
    validationErrorMessage [label] = "Por favor corrige el campo: " ++ label := by
  simp [validationErrorMessage]

theorem validationErrorMessage_many (errors : List String) (h : 2 ≤ errors.length) :
    validationErrorMessage errors
      = "Por favor corrige los siguientes campos: " ++ ", ".intercalate errors := by
  have h1 : errors.length > 1 := by omega
  simp [validationErrorMessage, h1]

/-- The run of `handleSubmit` on a form that fails validation. -/
theorem handleSubmitWith_of_invalid (server : FormData → ServerReply) (env : DateEnv)
    (confirmAnswer : Bool) (form : Form)
    (hinvalid : (validateAllFields env form.doc).1.isValid = false) :
    handleSubmitWith server env confirmAnswer form =
      { form with
        doc := (validateAllFields env form.doc).2,
        errorText := validationErrorMessage (failingLabels env form.doc),
        errorMessageDisplay := "block",
        successMessageDisplay := "none",
        log := form.log ++ [Effect.preventDefault, Effect.scrollToError] } := by
  simp [handleSubmitWith, record, showError, hinvalid, failingLabels_eq_errors]

/-- Claim C12. When `handleSubmit` finds the form invalid it shows the error banner
and stops: after `preventDefault` the only action is the scroll to the banner, so
no form data are collected, no confirmation is asked, the busy state is not set
and the server is not called.  The banner reads "Por favor corrige el campo: "
and the label when one field is invalid, and "Por favor corrige los siguientes
campos: " and the labels of the invalid fields, in registry order and joined with
", ", when two or more are. -/
theorem handleSubmit_invalid (server : FormData → ServerReply) (env : DateEnv)
    (confirmAnswer : Bool) (form : Form)
    (hinvalid : (validateAllFields env form.doc).1.isValid = false) :
    (handleSubmitWith server env confirmAnswer form).errorMessageDisplay = "block" ∧
    (handleSubmitWith server env confirmAnswer form).successMessageDisplay = "none" ∧
    (handleSubmitWith server env confirmAnswer form).log
      = form.log ++ [Effect.preventDefault, Effect.scrollToError] ∧
    (handleSubmitWith server env confirmAnswer form).submitDisabled = form.submitDisabled ∧
    (handleSubmitWith server env confirmAnswer form).btnText = form.btnText ∧
    failingLabels env form.doc ≠ [] ∧
    (∀ label, failingLabels env form.doc = [label] →
      (handleSubmitWith server env confirmAnswer form).errorText
        = "Por favor corrige el campo: " ++ label) ∧
    (2 ≤ (failingLabels env form.doc).length →
      (handleSubmitWith server env confirmAnswer form).errorText
        = "Por favor corrige los siguientes campos: " ++
          ", ".intercalate (failingLabels env form.doc)) := by
  rw [handleSubmitWith_of_invalid server env confirmAnswer form hinvalid]
  refine ⟨rfl, rfl, rfl, rfl, rfl, ?_, ?_, ?_⟩
  · intro h
    rw [failingLabels_eq_nil_iff, hinvalid] at h
    exact Bool.noConfusion h
  · intro label h
    simp only [h]
    exact validationErrorMessage_single label
  · intro h
    exact validationErrorMessage_many _ h

set_option maxRecDepth 100000 in
theorem handleSubmit_invalid_witness :
    ((validateAllFields exampleEnv (exampleForm examplePage []).doc).1.isValid = false ∧
      failingLabels exampleEnv (exampleForm examplePage []).doc = ["Correo electrónico"]) ∧
    (handleSubmit exampleEnv true (exampleForm examplePage [])).errorText
      = "Por favor corrige el campo: Correo electrónico" ∧
    ((validateAllFields exampleEnv (exampleForm pageTwoErrors []).doc).1.isValid = false ∧
      2 ≤ (failingLabels exampleEnv (exampleForm pageTwoErrors []).doc).length) ∧
    (handleSubmit exampleEnv true (exampleForm pageTwoErrors [])).errorText
      = "Por favor corrige los siguientes campos: " ++
        ", ".intercalate ["Correo electrónico", "Términos y condiciones"] :=
  ⟨⟨by decide, by decide⟩,
    (handleSubmit_invalid submitToServer exampleEnv true (exampleForm examplePage [])
      (by decide)).2.2.2.2.2.2.1 "Correo electrónico" (by decide),
    ⟨by decide, by decide⟩,
    (by
      have h := (handleSubmit_invalid submitToServer exampleEnv true
        (exampleForm pageTwoErrors []) (by decide)).2.2.2.2.2.2.2 (by decide)
      have hl : failingLabels exampleEnv (exampleForm pageTwoErrors []).doc
          = ["Correo electrónico", "Términos y condiciones"] := by decide
      rw [hl] at h
      exact h)⟩

end FormValidator

namespace FormValidator

/-- The log written by the block `try ... catch ... finally`, after the two
entries for `setLoading(true)` and the call of the server. -/
theorem submitAndReport_log (server : FormData → ServerReply) (form : Form)
    (formData : FormData) :
    (submitAndReport server form formData).log =
      form.log ++ [Effect.setLoading true, Effect.submitToServer formData] ++
        (match server formData with
         | ServerReply.resolved response =>
           if response.success then [Effect.scrollToSuccess, Effect.scheduleReset]
           else [Effect.scrollToError]
         | ServerReply.rejected => [Effect.consoleError, Effect.scrollToError]) ++
        [Effect.setLoading false] := by
  unfold submitAndReport
  cases server formData with
  | resolved response =>
    cases hs : response.success <;>
      simp [setLoading, record, showError, showSuccess, hs]
  | rejected => simp [setLoading, record, showError]

/-- The block `try ... catch ... finally` always ends with the button enabled. -/
theorem submitAndReport_button (server : FormData → ServerReply) (form : Form)
    (formData : FormData) :
    (submitAndReport server form formData).submitDisabled = false ∧
    (submitAndReport server form formData).btnText = "Unirse a la Red Social" := by
  unfold submitAndReport
  simp [setLoading, record]

theorem submitAndReport_success (server : FormData → ServerReply) (form : Form)
    (formData : FormData) (message : String)
    (h : server formData = ServerReply.resolved ⟨true, message⟩) :
    (submitAndReport server form formData).successMessageDisplay = "block" ∧
    (submitAndReport server form formData).errorMessageDisplay = "none" ∧
    (submitAndReport server form formData).errorText = form.errorText := by
  unfold submitAndReport
  simp [h, setLoading, record, showSuccess]

theorem submitAndReport_failure (server : FormData → ServerReply) (form : Form)
    (formData : FormData) (message : String)
    (h : server formData = ServerReply.resolved ⟨false, message⟩) :
    (submitAndReport server form formData).errorMessageDisplay = "block" ∧
    (submitAndReport server form formData).successMessageDisplay = "none" ∧
    (submitAndReport server form formData).errorText
      = (if message ≠ "" then message else "Error al procesar el registro") := by
  unfold submitAndReport
  simp [h, setLoading, record, showError]

theorem submitAndReport_rejected (server : FormData → ServerReply) (form : Form)
    (formData : FormData) (h : server formData = ServerReply.rejected) :
    (submitAndReport server form formData).errorMessageDisplay = "block" ∧
    (submitAndReport server form formData).successMessageDisplay = "none" ∧
    (submitAndReport server form formData).errorText
      = "Error de conexión. Por favor intenta nuevamente." := by
  unfold submitAndReport
  simp [h, setLoading, record, showError]

theorem getFormData_beforeSubmit (env : DateEnv) (form : Form) (entries : List Effect) :
    getFormData (beforeSubmit env form entries) = getFormData form :=
  rfl

theorem handleSubmitWith_of_declined (server : FormData → ServerReply) (env : DateEnv)
    (form : Form) (hvalid : (validateAllFields env form.doc).1.isValid = true)
    (hnone : (getFormData form).socialMedia = []) :
    handleSubmitWith server env false form
      = beforeSubmit env form [Effect.preventDefault, Effect.getFormData, Effect.confirm] := by
  have hnone' : (List.filter (fun cb => cb.checked) form.socialMedia) = [] := by
    simpa [getFormData] using hnone
  simp [handleSubmitWith, record, hvalid, getFormData, hnone', beforeSubmit]

theorem handleSubmitWith_of_confirmed (server : FormData → ServerReply) (env : DateEnv)
    (form : Form) (hvalid : (validateAllFields env form.doc).1.isValid = true)
    (hnone : (getFormData form).socialMedia = []) :
    handleSubmitWith server env true form
      = submitAndReport server
          (beforeSubmit env form [Effect.preventDefault, Effect.getFormData, Effect.confirm])
          (getFormData form) := by
  have hnone' : (List.filter (fun cb => cb.checked) form.socialMedia) = [] := by
    simpa [getFormData] using hnone
  simp [handleSubmitWith, record, hvalid, getFormData, hnone', beforeSubmit]

theorem handleSubmitWith_of_selected (server : FormData → ServerReply) (env : DateEnv)
    (confirmAnswer : Bool) (form : Form)
    (hvalid : (validateAllFields env form.doc).1.isValid = true)
    (hsome : (getFormData form).socialMedia ≠ []) :
    handleSubmitWith server env confirmAnswer form
      = submitAndReport server
          (beforeSubmit env form [Effect.preventDefault, Effect.getFormData])
          (getFormData form) := by
  have hsome' : ¬ (List.filter (fun cb => cb.checked) form.socialMedia) = [] := by
    simpa [getFormData] using hsome
  simp [handleSubmitWith, record, hvalid, getFormData, hsome', beforeSubmit]

end FormValidator

namespace FormValidator

theorem submitAndReport_enters (server : FormData → ServerReply) (form : Form)
    (formData : FormData) (n : Nat) (hn : n ≤ form.log.length) :
    Effect.setLoading true ∈ (submitAndReport server form formData).log.drop n := by
  rw [submitAndReport_log, List.append_assoc, List.append_assoc,
    List.drop_append_of_le_length hn]
  simp

theorem submitAndReport_last (server : FormData → ServerReply) (form : Form)
    (formData : FormData) :
    (submitAndReport server form formData).log.getLast? = some (Effect.setLoading false) := by
  rw [submitAndReport_log, List.getLast?_append]
  rfl

/-- Claim C13. Every run of `handleSubmit` that enters the submitting state, that
is, whose new log entries hold `setLoading(true)`, ends with the submit button
enabled, its text restored, and `setLoading(false)` as the last action, whatever
the reply of the server is.  The runs that enter it are those of a valid form with
an option of social networks checked or the confirmation accepted; there a reply
with `success = false` shows the error banner with the message of the reply, or
"Error al procesar el registro" when it has none, and a failed call shows the
error banner with the generic connection message. -/
theorem handleSubmit_busy_cleared (server : FormData → ServerReply) (env : DateEnv)
    (confirmAnswer : Bool) (form : Form) :
    (Effect.setLoading true ∈
        (handleSubmitWith server env confirmAnswer form).log.drop form.log.length →
      (handleSubmitWith server env confirmAnswer form).submitDisabled = false ∧
      (handleSubmitWith server env confirmAnswer form).btnText = "Unirse a la Red Social" ∧
      (handleSubmitWith server env confirmAnswer form).log.getLast?
        = some (Effect.setLoading false)) ∧
    ((validateAllFields env form.doc).1.isValid = true →
      ((getFormData form).socialMedia ≠ [] ∨ confirmAnswer = true) →
      Effect.setLoading true ∈
          (handleSubmitWith server env confirmAnswer form).log.drop form.log.length ∧
      (∀ message, server (getFormData form) = ServerReply.resolved ⟨false, message⟩ →
        (handleSubmitWith server env confirmAnswer form).errorMessageDisplay = "block" ∧
        (handleSubmitWith server env confirmAnswer form).successMessageDisplay = "none" ∧
        (handleSubmitWith server env confirmAnswer form).errorText
          = (if message ≠ "" then message else "Error al procesar el registro")) ∧
      (server (getFormData form) = ServerReply.rejected →
        (handleSubmitWith server env confirmAnswer form).errorMessageDisplay = "block" ∧
        (handleSubmitWith server env confirmAnswer form).successMessageDisplay = "none" ∧
        (handleSubmitWith server env confirmAnswer form).errorText
          = "Error de conexión. Por favor intenta nuevamente.")) := by
  have hpath : (validateAllFields env form.doc).1.isValid = true →
      ((getFormData form).socialMedia ≠ [] ∨ confirmAnswer = true) →
      ∃ entries, handleSubmitWith server env confirmAnswer form
        = submitAndReport server (beforeSubmit env form entries) (getFormData form) := by
    intro hvalid hgo
    by_cases hsome : (getFormData form).socialMedia = []
    · rcases hgo with h | h
      · exact absurd hsome h
      · subst h
        exact ⟨_, handleSubmitWith_of_confirmed server env form hvalid hsome⟩
    · exact ⟨_, handleSubmitWith_of_selected server env confirmAnswer form hvalid hsome⟩
  constructor
  · intro henter
    by_cases hvalid : (validateAllFields env form.doc).1.isValid = true
    · by_cases hgo : (getFormData form).socialMedia ≠ [] ∨ confirmAnswer = true
      · obtain ⟨entries, heq⟩ := hpath hvalid hgo
        rw [heq]
        exact ⟨(submitAndReport_button _ _ _).1, (submitAndReport_button _ _ _).2,
          submitAndReport_last _ _ _⟩
      · push_neg at hgo
        obtain ⟨hnone, hconfirm⟩ := hgo
        have hfalse : confirmAnswer = false := by simpa using hconfirm
        subst hfalse
        rw [handleSubmitWith_of_declined server env form hvalid hnone] at henter
        simp [beforeSubmit] at henter
    · have hinvalid : (validateAllFields env form.doc).1.isValid = false := by
        simpa using hvalid
      rw [handleSubmitWith_of_invalid server env confirmAnswer form hinvalid] at henter
      simp at henter
  · intro hvalid hgo
    obtain ⟨entries, heq⟩ := hpath hvalid hgo
    rw [heq]
    refine ⟨?_, ?_, ?_⟩
    · apply submitAndReport_enters
      simp [beforeSubmit]
    · intro message hreply
      exact submitAndReport_failure server _ _ message hreply
    · intro hreply
      exact submitAndReport_rejected server _ _ hreply

set_option maxRecDepth 100000 in
theorem handleSubmit_busy_cleared_witness :
    ((validateAllFields exampleEnv (exampleForm validPage []).doc).1.isValid = true ∧
      failingServer (getFormData (exampleForm validPage []))
        = ServerReply.resolved ⟨false, ""⟩) ∧
    (handleSubmitWith failingServer exampleEnv true (exampleForm validPage [])).errorText
      = "Error al procesar el registro" ∧
    (handleSubmitWith failingServer exampleEnv true (exampleForm validPage [])).submitDisabled
      = false ∧
    (handleSubmitWith brokenServer exampleEnv true (exampleForm validPage [])).errorText
      = "Error de conexión. Por favor intenta nuevamente." :=
  ⟨⟨by decide, rfl⟩,
    (((handleSubmit_busy_cleared failingServer exampleEnv true (exampleForm validPage [])).2
      (by decide) (Or.inr rfl)).2.1 "" rfl).2.2,
    ((handleSubmit_busy_cleared failingServer exampleEnv true (exampleForm validPage [])).1
      ((handleSubmit_busy_cleared failingServer exampleEnv true
        (exampleForm validPage [])).2 (by decide) (Or.inr rfl)).1).1,
    (((handleSubmit_busy_cleared brokenServer exampleEnv true (exampleForm validPage [])).2
      (by decide) (Or.inr rfl)).2.2 rfl).2.2⟩

/-- Claim C14. When all fields are valid, no option of social networks is checked
and the user declines the confirmation, `handleSubmit` stops after asking: both
banners are hidden, the button and its text are as before, and the log holds only
`preventDefault`, the reading of the form data and the confirmation, so the busy
state is never set and the server is never called. -/
theorem handleSubmit_declined (server : FormData → ServerReply) (env : DateEnv) (form : Form)
    (hvalid : (validateAllFields env form.doc).1.isValid = true)
    (hnone : ∀ cb ∈ form.socialMedia, cb.checked = false) :
    (handleSubmitWith server env false form).errorMessageDisplay = "none" ∧
    (handleSubmitWith server env false form).successMessageDisplay = "none" ∧
    (handleSubmitWith server env false form).log
      = form.log ++ [Effect.preventDefault, Effect.getFormData, Effect.confirm] ∧
    (∀ b, Effect.setLoading b ∉ (handleSubmitWith server env false form).log.drop
      form.log.length) ∧
    (∀ data, Effect.submitToServer data ∉ (handleSubmitWith server env false form).log.drop
      form.log.length) ∧
    (handleSubmitWith server env false form).submitDisabled = form.submitDisabled ∧
    (handleSubmitWith server env false form).btnText = form.btnText ∧
    (handleSubmitWith server env false form).errorText = form.errorText := by
  have hempty : (getFormData form).socialMedia = [] := by
    simp only [getFormData, List.map_eq_nil_iff, List.filter_eq_nil_iff]
    intro cb hcb
    simp [hnone cb hcb]
  rw [handleSubmitWith_of_declined server env form hvalid hempty]
  refine ⟨rfl, rfl, rfl, ?_, ?_, rfl, rfl, rfl⟩
  · intro b
    simp [beforeSubmit]
  · intro data
    simp [beforeSubmit]

set_option maxRecDepth 100000 in
theorem handleSubmit_declined_witness :
    ((validateAllFields exampleEnv
        (exampleForm validPage [⟨js "facebook", false, [], ""⟩]).doc).1.isValid = true ∧
      ∀ cb ∈ (exampleForm validPage [⟨js "facebook", false, [], ""⟩]).socialMedia,
        cb.checked = false) ∧
    (handleSubmit exampleEnv false (exampleForm validPage [⟨js "facebook", false, [], ""⟩])).log
      = [Effect.preventDefault, Effect.getFormData, Effect.confirm] :=
  ⟨⟨by decide, by decide⟩,
    (handleSubmit_declined submitToServer exampleEnv
      (exampleForm validPage [⟨js "facebook", false, [], ""⟩]) (by decide) (by decide)).2.2.1⟩

/-- The block `try ... catch ... finally` is the waiting state followed by the
handling of the reply. -/
theorem submitAndReport_eq_settled (server : FormData → ServerReply) (form : Form)
    (formData : FormData) :
    submitAndReport server form formData
      = submitSettled (server formData) (submitPending form formData) :=
  rfl

/-- While `handleSubmit` waits for the server the submit button is disabled and
shows the spinner, whatever the state before was. -/
theorem submitPending_busy (form : Form) (formData : FormData) :
    (submitPending form formData).submitDisabled = true ∧
    (submitPending form formData).btnText
      = "<i class=\"fas fa-spinner fa-spin me-2\"></i>Procesando..." ∧
    (submitPending form formData).log
      = form.log ++ [Effect.setLoading true, Effect.submitToServer formData] ∧
    (submitPending form formData).errorMessageDisplay = form.errorMessageDisplay ∧
    (submitPending form formData).successMessageDisplay = form.successMessageDisplay := by
  simp [submitPending, setLoading, record]

/-- Claim C15. When all fields are valid and an option of social networks is
checked, `handleSubmit` asks no confirmation and enters the submitting state: it
waits for the server in a state where the submit button is disabled and shows the
spinner, both banners are hidden, and the call of `submitToServer` with the form
data has been made (the reply is a success for every data).  From that state it
shows the success banner, keeps the error banner hidden, and ends with the busy
state cleared: button enabled and its text restored. -/
theorem handleSubmit_success (env : DateEnv) (confirmAnswer : Bool) (form : Form)
    (hvalid : (validateAllFields env form.doc).1.isValid = true)
    (hsome : ∃ cb ∈ form.socialMedia, cb.checked = true) :
    handleSubmit env confirmAnswer form
      = submitSettled (submitToServer (getFormData form))
          (submitPending (beforeSubmit env form [Effect.preventDefault, Effect.getFormData])
            (getFormData form)) ∧
    (submitPending (beforeSubmit env form [Effect.preventDefault, Effect.getFormData])
      (getFormData form)).submitDisabled = true ∧
    (submitPending (beforeSubmit env form [Effect.preventDefault, Effect.getFormData])
      (getFormData form)).btnText
      = "<i class=\"fas fa-spinner fa-spin me-2\"></i>Procesando..." ∧
    (submitPending (beforeSubmit env form [Effect.preventDefault, Effect.getFormData])
      (getFormData form)).log
      = form.log ++ [Effect.preventDefault, Effect.getFormData, Effect.setLoading true,
          Effect.submitToServer (getFormData form)] ∧
    (submitPending (beforeSubmit env form [Effect.preventDefault, Effect.getFormData])
      (getFormData form)).errorMessageDisplay = "none" ∧
    (submitPending (beforeSubmit env form [Effect.preventDefault, Effect.getFormData])
      (getFormData form)).successMessageDisplay = "none" ∧
    (handleSubmit env confirmAnswer form).log
      = form.log ++ [Effect.preventDefault, Effect.getFormData, Effect.setLoading true,
          Effect.submitToServer (getFormData form), Effect.scrollToSuccess,
          Effect.scheduleReset, Effect.setLoading false] ∧
    Effect.confirm ∉ (handleSubmit env confirmAnswer form).log.drop form.log.length ∧
    (∀ data, submitToServer data
      = ServerReply.resolved ⟨true, "Usuario registrado exitosamente"⟩) ∧
    (handleSubmit env confirmAnswer form).successMessageDisplay = "block" ∧
    (handleSubmit env confirmAnswer form).errorMessageDisplay = "none" ∧
    (handleSubmit env confirmAnswer form).submitDisabled = false ∧
    (handleSubmit env confirmAnswer form).btnText = "Unirse a la Red Social" := by
  have hne : (getFormData form).socialMedia ≠ [] := by
    obtain ⟨cb, hcb, hchecked⟩ := hsome
    simp only [getFormData, ne_eq, List.map_eq_nil_iff, List.filter_eq_nil_iff, not_forall]
    exact ⟨cb, hcb, by simp [hchecked]⟩
  have hrun : handleSubmit env confirmAnswer form
      = submitAndReport submitToServer
          (beforeSubmit env form [Effect.preventDefault, Effect.getFormData])
          (getFormData form) := by
    unfold handleSubmit
    exact handleSubmitWith_of_selected submitToServer env confirmAnswer form hvalid hne
  have hpending := submitPending_busy
    (beforeSubmit env form [Effect.preventDefault, Effect.getFormData]) (getFormData form)
  have hlog : (handleSubmit env confirmAnswer form).log
      = form.log ++ [Effect.preventDefault, Effect.getFormData, Effect.setLoading true,
          Effect.submitToServer (getFormData form), Effect.scrollToSuccess,
          Effect.scheduleReset, Effect.setLoading false] := by
    rw [hrun, submitAndReport_log]
    simp [submitToServer, beforeSubmit, getFormData]
  have hreply : submitToServer (getFormData form)
      = ServerReply.resolved ⟨true, "Usuario registrado exitosamente"⟩ := rfl
  refine ⟨?_, hpending.1, hpending.2.1, ?_, ?_, ?_, hlog, ?_, fun _ => rfl, ?_, ?_, ?_, ?_⟩
  · rw [hrun]
    rfl
  · rw [hpending.2.2.1]
    simp [beforeSubmit]
  · rw [hpending.2.2.2.1]
    rfl
  · rw [hpending.2.2.2.2]
    rfl
  · rw [hlog]
    simp
  · rw [hrun]
    exact (submitAndReport_success submitToServer _ _ _ hreply).1
  · rw [hrun]
    exact (submitAndReport_success submitToServer _ _ _ hreply).2.1
  · rw [hrun]
    exact (submitAndReport_button _ _ _).1
  · rw [hrun]
    exact (submitAndReport_button _ _ _).2

set_option maxRecDepth 100000 in
theorem handleSubmit_success_witness :
    ((validateAllFields exampleEnv
        (exampleForm validPage [⟨js "facebook", true, [], ""⟩]).doc).1.isValid = true ∧
      ∃ cb ∈ (exampleForm validPage [⟨js "facebook", true, [], ""⟩]).socialMedia,
        cb.checked = true) ∧
    (exampleForm validPage [⟨js "facebook", true, [], ""⟩]).submitDisabled = false ∧
    (submitPending
      (beforeSubmit exampleEnv (exampleForm validPage [⟨js "facebook", true, [], ""⟩])
        [Effect.preventDefault, Effect.getFormData])
      (getFormData (exampleForm validPage [⟨js "facebook", true, [], ""⟩]))).submitDisabled
      = true ∧
    (handleSubmit exampleEnv false
        (exampleForm validPage [⟨js "facebook", true, [], ""⟩])).successMessageDisplay
      = "block" ∧
    (handleSubmit exampleEnv false
        (exampleForm validPage [⟨js "facebook", true, [], ""⟩])).submitDisabled = false :=
  ⟨⟨by decide, ⟨⟨js "facebook", true, [], ""⟩, by decide, rfl⟩⟩,
    rfl,
    (handleSubmit_success exampleEnv false
      (exampleForm validPage [⟨js "facebook", true, [], ""⟩]) (by decide)
      ⟨⟨js "facebook", true, [], ""⟩, by decide, rfl⟩).2.1,
    (handleSubmit_success exampleEnv false
      (exampleForm validPage [⟨js "facebook", true, [], ""⟩]) (by decide)
      ⟨⟨js "facebook", true, [], ""⟩, by decide, rfl⟩).2.2.2.2.2.2.2.2.2.1,
    (handleSubmit_success exampleEnv false
      (exampleForm validPage [⟨js "facebook", true, [], ""⟩]) (by decide)
      ⟨⟨js "facebook", true, [], ""⟩, by decide, rfl⟩).2.2.2.2.2.2.2.2.2.2.2.1⟩

end FormValidator
